import Mathlib

/-!
# External ballistics library: drag model, atmospheric correction, trajectory integrator

A shallow embedding of `ballistics.h` / `ballistics.cpp`.

Modelling conventions.

* A C `double` is an element of a linearly ordered field `α`: arithmetic is exact, there is
  no rounding, no infinity and no NaN.  Division by zero yields `0` in `α`, where IEEE
  arithmetic yields an infinity or a NaN; the theorems are statements about this
  exact-arithmetic model.
* The C library functions `sqrt`, `sin`, `cos`, `atan` and `pow` (with a non-integral
  exponent) are not part of the repository; they are taken as parameters, bundled in
  `MathOps`.  `pow(x, 2)` and `pow(x, 3)` with a literal exponent are the monomials
  `x ^ 2` and `x ^ 3`, and `fabs` is the absolute value of `α`.  Statements about the values
  of `cos`, `sin` and `pow` away from `0` are made over `ℝ`, with the real cosine, sine and
  power function in their place.
* The `int` field `ProjectilePathCount` is an `Int`; the buffer `aProjectilePath`, allocated
  with `BCOMP_MAXRANGE` elements, is a map from indices to samples, and a write outside
  `0 .. BCOMP_MAXRANGE - 1` (undefined behaviour in C++) makes `Update` return `none`.
-/

namespace Ballistics

/-- The C library functions used by the library, as parameters of the model. -/
structure MathOps (α : Type) where
  sqrt : α → α
  sin : α → α
  cos : α → α
  atan : α → α
  pow : α → α → α

/-- The `enum EDragFunction { G1=1, G2, G3, G4, G5, G6, G7, G8 }`. -/
inductive EDragFunction where
  | G1 | G2 | G3 | G4 | G5 | G6 | G7 | G8
  deriving DecidableEq, Repr

/-- The `#define BCOMP_MAXRANGE 50000`. -/
def BCOMP_MAXRANGE : Int := 50000

section Defs

variable {α : Type} [LinearOrderedField α]

/-- The `#define GRAVITY (-32.194)`. -/
def GRAVITY : α := -32.194

/-- The macro `DegtoRad(deg)`. -/
def DegtoRad (deg : α) : α := deg * 0.01745329251994329576923690768489

/-- The macro `MOAtoRad(moa)`. -/
def MOAtoRad (moa : α) : α := moa * 0.00029088820866572159615394846141477

/-- The macro `RadtoDeg(rad)`. -/
def RadtoDeg (rad : α) : α := rad * 57.295779513082320876798154814105

/-- The macro `RadtoMOA(rad)`. -/
def RadtoMOA (rad : α) : α := rad * 3437.7467707849392526078892888463

/-- The `struct ProjectilePath`: one recorded sample of the trajectory. -/
structure ProjectilePath (α : Type) where
  Range : α
  Path : α
  MOA : α
  Time : α
  Windage : α
  WindageMOA : α
  Velocity : α
  Vx : α
  Vy : α

/-- The data members of `class Projectile`. -/
structure Projectile (α : Type) where
  vx : α
  vy : α
  x : α
  y : α
  ProjectilePathCount : Int
  aProjectilePath : Nat → ProjectilePath α
  t : α
  Gx : α
  Gy : α
  DragFunction : EDragFunction
  DragCoefficient : α
  MuzzleVelocity : α
  SightHeightOverBore : α

/-- The `switch (DragFunction)` of `Projectile::DragRetardationVelocity`: the pair `(A, M)`
it leaves in the two locals, both initialised to `-1`. -/
def dragSwitch (DragFunction : EDragFunction) (vp : α) : α × α :=
  match DragFunction with
  | .G1 =>
    if vp > 4230 then (1.477404177730177e-04, 1.9565)
    else if vp > 3680 then (1.920339268755614e-04, 1.925)
    else if vp > 3450 then (2.894751026819746e-04, 1.875)
    else if vp > 3295 then (4.349905111115636e-04, 1.825)
    else if vp > 3130 then (6.520421871892662e-04, 1.775)
    else if vp > 2960 then (9.748073694078696e-04, 1.725)
    else if vp > 2830 then (1.453721560187286e-03, 1.675)
    else if vp > 2680 then (2.162887202930376e-03, 1.625)
    else if vp > 2460 then (3.209559783129881e-03, 1.575)
    else if vp > 2225 then (3.904368218691249e-03, 1.55)
    else if vp > 2015 then (3.222942271262336e-03, 1.575)
    else if vp > 1890 then (2.203329542297809e-03, 1.625)
    else if vp > 1810 then (1.511001028891904e-03, 1.675)
    else if vp > 1730 then (8.609957592468259e-04, 1.75)
    else if vp > 1595 then (4.086146797305117e-04, 1.85)
    else if vp > 1520 then (1.954473210037398e-04, 1.95)
    else if vp > 1420 then (5.431896266462351e-05, 2.125)
    else if vp > 1360 then (8.847742581674416e-06, 2.375)
    else if vp > 1315 then (1.456922328720298e-06, 2.625)
    else if vp > 1280 then (2.419485191895565e-07, 2.875)
    else if vp > 1220 then (1.657956321067612e-08, 3.25)
    else if vp > 1185 then (4.745469537157371e-10, 3.75)
    else if vp > 1150 then (1.379746590025088e-11, 4.25)
    else if vp > 1100 then (4.070157961147882e-13, 4.75)
    else if vp > 1060 then (2.938236954847331e-14, 5.125)
    else if vp > 1025 then (1.228597370774746e-14, 5.25)
    else if vp > 980 then (2.916938264100495e-14, 5.125)
    else if vp > 945 then (3.855099424807451e-13, 4.75)
    else if vp > 905 then (1.185097045689854e-11, 4.25)
    else if vp > 860 then (3.566129470974951e-10, 3.75)
    else if vp > 810 then (1.045513263966272e-08, 3.25)
    else if vp > 780 then (1.291159200846216e-07, 2.875)
    else if vp > 750 then (6.824429329105383e-07, 2.625)
    else if vp > 700 then (3.569169672385163e-06, 2.375)
    else if vp > 640 then (1.839015095899579e-05, 2.125)
    else if vp > 600 then (5.71117468873424e-05, 1.950)
    else if vp > 550 then (9.226557091973427e-05, 1.875)
    else if vp > 250 then (9.337991957131389e-05, 1.875)
    else if vp > 100 then (7.225247327590413e-05, 1.925)
    else if vp > 65 then (5.792684957074546e-05, 1.975)
    else if vp > 0 then (5.206214107320588e-05, 2.000)
    else (-1, -1)
  | .G2 =>
    if vp > 1674 then (0.0079470052136733, 1.36999902851493)
    else if vp > 1172 then (1.00419763721974e-03, 1.65392237010294)
    else if vp > 1060 then (7.15571228255369e-23, 7.91913562392361)
    else if vp > 949 then (1.39589807205091e-10, 3.81439537623717)
    else if vp > 670 then (2.34364342818625e-04, 1.71869536324748)
    else if vp > 335 then (1.77962438921838e-04, 1.76877550388679)
    else if vp > 0 then (5.18033561289704e-05, 1.98160270524632)
    else (-1, -1)
  | .G5 =>
    if vp > 1730 then (7.24854775171929e-03, 1.41538574492812)
    else if vp > 1228 then (3.50563361516117e-05, 2.13077307854948)
    else if vp > 1116 then (1.84029481181151e-13, 4.81927320350395)
    else if vp > 1004 then (1.34713064017409e-22, 7.8100555281422)
    else if vp > 837 then (1.03965974081168e-07, 2.84204791809926)
    else if vp > 335 then (1.09301593869823e-04, 1.81096361579504)
    else if vp > 0 then (3.51963178524273e-05, 2.00477856801111)
    else (-1, -1)
  | .G6 =>
    if vp > 3236 then (0.0455384883480781, 1.15997674041274)
    else if vp > 2065 then (7.167261849653769e-02, 1.10704436538885)
    else if vp > 1311 then (1.66676386084348e-03, 1.60085100195952)
    else if vp > 1144 then (1.01482730119215e-07, 2.9569674731838)
    else if vp > 1004 then (4.31542773103552e-18, 6.34106317069757)
    else if vp > 670 then (2.04835650496866e-05, 2.11688446325998)
    else if vp > 0 then (7.50912466084823e-05, 1.92031057847052)
    else (-1, -1)
  | .G7 =>
    if vp > 4200 then (1.29081656775919e-09, 3.24121295355962)
    else if vp > 3000 then (0.0171422231434847, 1.27907168025204)
    else if vp > 1470 then (2.33355948302505e-03, 1.52693913274526)
    else if vp > 1260 then (7.97592111627665e-04, 1.67688974440324)
    else if vp > 1110 then (5.71086414289273e-12, 4.3212826264889)
    else if vp > 960 then (3.02865108244904e-17, 5.99074203776707)
    else if vp > 670 then (7.52285155782535e-06, 2.1738019851075)
    else if vp > 540 then (1.31766281225189e-05, 2.08774690257991)
    else if vp > 0 then (1.34504843776525e-05, 2.08702306738884)
    else (-1, -1)
  | .G8 =>
    if vp > 3571 then (0.0112263766252305, 1.33207346655961)
    else if vp > 1841 then (0.0167252613732636, 1.28662041261785)
    else if vp > 1120 then (2.20172456619625e-03, 1.55636358091189)
    else if vp > 1088 then (2.0538037167098e-16, 5.80410776994789)
    else if vp > 976 then (5.92182174254121e-12, 4.29275576134191)
    else if vp > 0 then (4.3917343795117e-05, 1.99978116283334)
    else (-1, -1)
  | _ => (-1, -1)

/-- The method `Projectile::DragRetardationVelocity`. -/
def DragRetardationVelocity (m : MathOps α) (p : Projectile α) (Velocity : α) : α :=
  let vp := Velocity
  let AM := dragSwitch p.DragFunction vp
  let A := AM.1
  let M := AM.2
  if A ≠ -1 ∧ M ≠ -1 ∧ vp > 0 ∧ vp < 10000 then
    A * m.pow vp M / p.DragCoefficient
  else
    -1

/-- The breakpoint list of a drag-function variant as the specification describes it:
entries `(velocityLowerBound, A, M)` in descending order of the bound, empty for a variant
without a table.  Stated next to `dragSwitch` to compare the two. -/
def DragTable (α : Type) [LinearOrderedField α] (DragFunction : EDragFunction) :
    List (α × α × α) :=
  match DragFunction with
  | .G1 =>
    [(4230, 1.477404177730177e-04, 1.9565),
     (3680, 1.920339268755614e-04, 1.925),
     (3450, 2.894751026819746e-04, 1.875),
     (3295, 4.349905111115636e-04, 1.825),
     (3130, 6.520421871892662e-04, 1.775),
     (2960, 9.748073694078696e-04, 1.725),
     (2830, 1.453721560187286e-03, 1.675),
     (2680, 2.162887202930376e-03, 1.625),
     (2460, 3.209559783129881e-03, 1.575),
     (2225, 3.904368218691249e-03, 1.55),
     (2015, 3.222942271262336e-03, 1.575),
     (1890, 2.203329542297809e-03, 1.625),
     (1810, 1.511001028891904e-03, 1.675),
     (1730, 8.609957592468259e-04, 1.75),
     (1595, 4.086146797305117e-04, 1.85),
     (1520, 1.954473210037398e-04, 1.95),
     (1420, 5.431896266462351e-05, 2.125),
     (1360, 8.847742581674416e-06, 2.375),
     (1315, 1.456922328720298e-06, 2.625),
     (1280, 2.419485191895565e-07, 2.875),
     (1220, 1.657956321067612e-08, 3.25),
     (1185, 4.745469537157371e-10, 3.75),
     (1150, 1.379746590025088e-11, 4.25),
     (1100, 4.070157961147882e-13, 4.75),
     (1060, 2.938236954847331e-14, 5.125),
     (1025, 1.228597370774746e-14, 5.25),
     (980, 2.916938264100495e-14, 5.125),
     (945, 3.855099424807451e-13, 4.75),
     (905, 1.185097045689854e-11, 4.25),
     (860, 3.566129470974951e-10, 3.75),
     (810, 1.045513263966272e-08, 3.25),
     (780, 1.291159200846216e-07, 2.875),
     (750, 6.824429329105383e-07, 2.625),
     (700, 3.569169672385163e-06, 2.375),
     (640, 1.839015095899579e-05, 2.125),
     (600, 5.71117468873424e-05, 1.950),
     (550, 9.226557091973427e-05, 1.875),
     (250, 9.337991957131389e-05, 1.875),
     (100, 7.225247327590413e-05, 1.925),
     (65, 5.792684957074546e-05, 1.975),
     (0, 5.206214107320588e-05, 2.000)]
  | .G2 =>
    [(1674, 0.0079470052136733, 1.36999902851493),
     (1172, 1.00419763721974e-03, 1.65392237010294),
     (1060, 7.15571228255369e-23, 7.91913562392361),
     (949, 1.39589807205091e-10, 3.81439537623717),
     (670, 2.34364342818625e-04, 1.71869536324748),
     (335, 1.77962438921838e-04, 1.76877550388679),
     (0, 5.18033561289704e-05, 1.98160270524632)]
  | .G5 =>
    [(1730, 7.24854775171929e-03, 1.41538574492812),
     (1228, 3.50563361516117e-05, 2.13077307854948),
     (1116, 1.84029481181151e-13, 4.81927320350395),
     (1004, 1.34713064017409e-22, 7.8100555281422),
     (837, 1.03965974081168e-07, 2.84204791809926),
     (335, 1.09301593869823e-04, 1.81096361579504),
     (0, 3.51963178524273e-05, 2.00477856801111)]
  | .G6 =>
    [(3236, 0.0455384883480781, 1.15997674041274),
     (2065, 7.167261849653769e-02, 1.10704436538885),
     (1311, 1.66676386084348e-03, 1.60085100195952),
     (1144, 1.01482730119215e-07, 2.9569674731838),
     (1004, 4.31542773103552e-18, 6.34106317069757),
     (670, 2.04835650496866e-05, 2.11688446325998),
     (0, 7.50912466084823e-05, 1.92031057847052)]
  | .G7 =>
    [(4200, 1.29081656775919e-09, 3.24121295355962),
     (3000, 0.0171422231434847, 1.27907168025204),
     (1470, 2.33355948302505e-03, 1.52693913274526),
     (1260, 7.97592111627665e-04, 1.67688974440324),
     (1110, 5.71086414289273e-12, 4.3212826264889),
     (960, 3.02865108244904e-17, 5.99074203776707),
     (670, 7.52285155782535e-06, 2.1738019851075),
     (540, 1.31766281225189e-05, 2.08774690257991),
     (0, 1.34504843776525e-05, 2.08702306738884)]
  | .G8 =>
    [(3571, 0.0112263766252305, 1.33207346655961),
     (1841, 0.0167252613732636, 1.28662041261785),
     (1120, 2.20172456619625e-03, 1.55636358091189),
     (1088, 2.0538037167098e-16, 5.80410776994789),
     (976, 5.92182174254121e-12, 4.29275576134191),
     (0, 4.3917343795117e-05, 1.99978116283334)]
  | _ => []

/-- Top-down scan of a breakpoint list: the `(A, M)` of the first entry whose lower bound
is strictly below `vp`, and `(-1, -1)` when there is none. -/
def scanTable : List (α × α × α) → α → α × α
  | [], _ => (-1, -1)
  | e :: es, vp => if vp > e.1 then (e.2.1, e.2.2) else scanTable es vp

/-- The method `Projectile::CalculateFactorRH`. -/
def CalculateFactorRH (Temperature Pressure RelativeHumidity : α) : α :=
  let VPw := 4e-6 * Temperature ^ 3 - 0.0004 * Temperature ^ 2 + 0.0234 * Temperature - 0.2517
  let FRH := 0.995 * (Pressure / (Pressure - 0.3783 * RelativeHumidity * VPw))
  FRH

/-- The method `Projectile::CalculateFactorP`. -/
def CalculateFactorP (Pressure : α) : α :=
  let Pstd : α := 29.53
  let FP := (Pressure - Pstd) / Pstd
  FP

/-- The method `Projectile::CalculateFactorT`. -/
def CalculateFactorT (Temperature Altitude : α) : α :=
  let Tstd := -0.0036 * Altitude + 59
  let FT := (Temperature - Tstd) / (459.6 + Tstd)
  FT

/-- The method `Projectile::CalculateFactorA`. -/
def CalculateFactorA (Altitude : α) : α :=
  let fa := -4e-15 * Altitude ^ 3 + 4e-10 * Altitude ^ 2 - 3e-5 * Altitude + 1
  1 / fa

/-- The method `Projectile::DragCoefficientAtmosphericCorrection`: the returned value and
the projectile after the call. -/
def DragCoefficientAtmosphericCorrection (p : Projectile α)
    (Altitude_feet Barometer_hg Temperature_f RelativeHumidity : α) : α × Projectile α :=
  let FA := CalculateFactorA Altitude_feet
  let FT := CalculateFactorT Temperature_f Altitude_feet
  let FR := CalculateFactorRH Temperature_f Barometer_hg RelativeHumidity
  let FP := CalculateFactorP Barometer_hg
  let CD := FA * (1 + FT - FP) * FR
  let p1 := { p with DragCoefficient := p.DragCoefficient * CD }
  (p1.DragCoefficient, p1)

/-- The method `Projectile::WindageCorrection`. -/
def WindageCorrection (WindSpeed_mile_hr Velocity_feet_sec range_feet time : α) : α :=
  let Vw := WindSpeed_mile_hr * 17.60
  Vw * (time - range_feet / Velocity_feet_sec)

/-- The function `HeadWindVelocity`. -/
def HeadWindVelocity (m : MathOps α) (WindSpeed_mile_hr WindAngle : α) : α :=
  let Wangle := DegtoRad WindAngle
  m.cos Wangle * WindSpeed_mile_hr

/-- The function `CrossWindVelocity`. -/
def CrossWindVelocity (m : MathOps α) (WindSpeed_mile_hr WindAngle : α) : α :=
  let Wangle := DegtoRad WindAngle
  m.sin Wangle * WindSpeed_mile_hr

/-- The method `Projectile::Initialize`. -/
def Initialize (m : MathOps α) (p : Projectile α) (BoreAngle SightToBoreAngle : α) :
    Projectile α :=
  { p with
    Gy := GRAVITY * m.cos (DegtoRad (BoreAngle + SightToBoreAngle))
    Gx := GRAVITY * m.sin (DegtoRad (BoreAngle + SightToBoreAngle))
    vx := p.MuzzleVelocity * m.cos (DegtoRad SightToBoreAngle)
    vy := p.MuzzleVelocity * m.sin (DegtoRad SightToBoreAngle)
    x := 0
    y := -p.SightHeightOverBore / 12
    ProjectilePathCount := 0
    t := 0 }

/-- The method `Projectile::Update`.  The result is the returned `int`, the value left in
the reference parameter `dt`, and the projectile after the call; it is `none` when the call
writes `aProjectilePath` at an index outside `0 .. BCOMP_MAXRANGE - 1`. -/
def Update (m : MathOps α) (p : Projectile α) (dt headwind_mile_hr crosswind_mile_hr : α) :
    Option (Int × α × Projectile α) :=
  let vx_last := p.vx
  let vy_last := p.vy
  let v := m.sqrt (p.vx * p.vx + p.vy * p.vy)
  let dv := DragRetardationVelocity m p (v + headwind_mile_hr * 5280.0 / 3600.0)
  let dvx := -(p.vx / v) * dv
  let dvy := -(p.vy / v) * dv
  let vx := p.vx + (dt * dvx + dt * p.Gx)
  let vy := p.vy + (dt * dvy + dt * p.Gy)
  let n := p.ProjectilePathCount
  let recorded : Option (Int × (Nat → ProjectilePath α)) :=
    if p.x / 3 ≥ (n : α) then
      if 0 ≤ n ∧ n < BCOMP_MAXRANGE then
        let Windage := WindageCorrection crosswind_mile_hr p.MuzzleVelocity p.x (p.t + dt)
        some (n + 1, Function.update p.aProjectilePath n.toNat
          { Range := p.x / 3
            Path := p.y * 12
            MOA := -RadtoMOA (m.atan (p.y / p.x))
            Time := p.t + dt
            Windage := Windage
            WindageMOA := RadtoMOA (m.atan (Windage / (12 * p.x)))
            Velocity := v
            Vx := vx
            Vy := vy })
      else none
    else some (n, p.aProjectilePath)
  match recorded with
  | none => none
  | some (n1, buf) =>
    let x := p.x + dt * (vx + vx_last) / 2
    let y := p.y + dt * (vy + vy_last) / 2
    let dt1 := 0.5 / v
    let p1 := { p with
      vx := vx, vy := vy, x := x, y := y, ProjectilePathCount := n1, aProjectilePath := buf }
    if |vy| > |3 * vx| then some (0, dt1, p1)
    else if n1 ≥ BCOMP_MAXRANGE then some (0, dt1, p1)
    else some (1, dt1, p1)

/-- How a run of `SolveAll` with a bound on the number of loop iterations ends: it returned
`count` (leaving the projectile `p`), it wrote outside the buffer, or the bound was reached
with the loop still running (the next call would get `dt` on the projectile `p`). -/
inductive SolveOutcome (α : Type) where
  | done (count : Int) (p : Projectile α)
  | fault
  | running (dt : α) (p : Projectile α)

/-- The loop `for (double dt = 0; ; projectile.t += dt)` of `SolveAll`, run for at most
`fuel` iterations. -/
def SolveAll.loop (m : MathOps α) (headwind_mile_hr crosswind_mile_hr : α) :
    Nat → α → Projectile α → SolveOutcome α
  | 0, dt, p => .running dt p
  | fuel + 1, dt, p =>
    match Update m p dt headwind_mile_hr crosswind_mile_hr with
    | none => .fault
    | some (r, dt1, p1) =>
      if r = 0 then .done p1.ProjectilePathCount p1
      else SolveAll.loop m headwind_mile_hr crosswind_mile_hr fuel dt1 { p1 with t := p1.t + dt1 }

/-- The function `SolveAll`, its loop bounded by `fuel` iterations. -/
def SolveAll (m : MathOps α) (fuel : Nat) (WindSpeed_mile_hr WindAngle : α)
    (projectile : Projectile α) : SolveOutcome α :=
  let headwind_mile_hr := HeadWindVelocity m WindSpeed_mile_hr WindAngle
  let crosswind_mile_hr := CrossWindVelocity m WindSpeed_mile_hr WindAngle
  SolveAll.loop m headwind_mile_hr crosswind_mile_hr fuel 0 projectile

/-- The inner loop `for (t = 0, x = 0, y = 0 - SightHeightOverBore/12; x <= ZeroRange_yard*3;
t = t + dt)` of `Projectile::CalculateSightToBoreAngle`, on the locals `vx`, `vy`, `x`, `y`
(`Gx`, `Gy` are the locals set before the loop).  The result is the value of `y` (in feet)
when the loop is left, `none` when `fuel` iterations did not leave it. -/
def CalculateSightToBoreAngle.flight (m : MathOps α) (p : Projectile α)
    (ZeroRange_yard yIntercept_inch Gx Gy : α) : Nat → α → α → α → α → Option α
  | 0, _, _, _, _ => none
  | fuel + 1, vx, vy, x, y =>
    if x ≤ ZeroRange_yard * 3 then
      let vy_last := vy
      let vx_last := vx
      let v := m.sqrt (vx * vx + vy * vy)
      let dt := 1 / v
      let dv := DragRetardationVelocity m p v
      let dvx := -(vx / v) * dv
      let dvy := -(vy / v) * dv
      let vx := vx + (dt * dvx + dt * Gx)
      let vy := vy + (dt * dvy + dt * Gy)
      let x := x + dt * (vx + vx_last) / 2
      let y := y + dt * (vy + vy_last) / 2
      if vy < 0 ∧ y < yIntercept_inch then some y
      else if vy > 3 * vx then some y
      else CalculateSightToBoreAngle.flight m p ZeroRange_yard yIntercept_inch Gx Gy fuel
        vx vy x y
    else some y

/-- Which `break` left the outer loop of `Projectile::CalculateSightToBoreAngle`. -/
inductive ZeroExit where
  | converged
  | exceeded45
  deriving DecidableEq, Repr

/-- The outer loop `for (angle = 0; ; angle = angle + da)` of
`Projectile::CalculateSightToBoreAngle`, on the locals `angle` and `da` (radians): the
final `angle` and the `break` taken, `none` when `fuel` iterations (each with `innerFuel`
for the inner loop) did not leave it. -/
def CalculateSightToBoreAngle.search (m : MathOps α) (p : Projectile α)
    (ZeroRange_yard yIntercept_inch : α) (innerFuel : Nat) : Nat → α → α → Option (α × ZeroExit)
  | 0, _, _ => none
  | fuel + 1, angle, da =>
    let vy := p.MuzzleVelocity * m.sin angle
    let vx := p.MuzzleVelocity * m.cos angle
    let Gx := GRAVITY * m.sin angle
    let Gy := GRAVITY * m.cos angle
    match CalculateSightToBoreAngle.flight m p ZeroRange_yard yIntercept_inch Gx Gy innerFuel
        vx vy 0 (0 - p.SightHeightOverBore / 12) with
    | none => none
    | some y =>
      let da := if y > yIntercept_inch ∧ da > 0 then -da / 2 else da
      let da := if y < yIntercept_inch ∧ da < 0 then -da / 2 else da
      if |da| < MOAtoRad 0.01 then some (angle, .converged)
      else if angle > DegtoRad 45 then some (angle, .exceeded45)
      else CalculateSightToBoreAngle.search m p ZeroRange_yard yIntercept_inch innerFuel fuel
        (angle + da) da

/-- The method `Projectile::CalculateSightToBoreAngle`, its loops bounded by `fuel` and
`innerFuel` iterations: the returned angle in degrees. -/
def CalculateSightToBoreAngle (m : MathOps α) (p : Projectile α) (fuel innerFuel : Nat)
    (ZeroRange_yard yIntercept_inch : α) : Option α :=
  match CalculateSightToBoreAngle.search m p ZeroRange_yard yIntercept_inch innerFuel fuel
      0 (DegtoRad 14) with
  | none => none
  | some (angle, _) => some (RadtoDeg angle)

/-- The inner loop of the zero search as the documentation of `CalculateSightToBoreAngle`
in `ballistics.h` describes its argument (`yIntercept`: a height in inches): the same loop
as `CalculateSightToBoreAngle.flight`, with the height `y`, which is in feet, converted to
inches where it is compared with the intercept. -/
def zeroFlightInches (m : MathOps α) (p : Projectile α)
    (ZeroRange_yard yIntercept_inch Gx Gy : α) : Nat → α → α → α → α → Option α
  | 0, _, _, _, _ => none
  | fuel + 1, vx, vy, x, y =>
    if x ≤ ZeroRange_yard * 3 then
      let vy_last := vy
      let vx_last := vx
      let v := m.sqrt (vx * vx + vy * vy)
      let dt := 1 / v
      let dv := DragRetardationVelocity m p v
      let dvx := -(vx / v) * dv
      let dvy := -(vy / v) * dv
      let vx := vx + (dt * dvx + dt * Gx)
      let vy := vy + (dt * dvy + dt * Gy)
      let x := x + dt * (vx + vx_last) / 2
      let y := y + dt * (vy + vy_last) / 2
      if vy < 0 ∧ y * 12 < yIntercept_inch then some y
      else if vy > 3 * vx then some y
      else zeroFlightInches m p ZeroRange_yard yIntercept_inch Gx Gy fuel vx vy x y
    else some y

/-- The outer loop of the zero search with the intercept taken in inches, as documented:
the same loop as `CalculateSightToBoreAngle.search`, with `y` converted to inches where it
is compared with the intercept. -/
def zeroSearchInches (m : MathOps α) (p : Projectile α)
    (ZeroRange_yard yIntercept_inch : α) (innerFuel : Nat) : Nat → α → α → Option (α × ZeroExit)
  | 0, _, _ => none
  | fuel + 1, angle, da =>
    let vy := p.MuzzleVelocity * m.sin angle
    let vx := p.MuzzleVelocity * m.cos angle
    let Gx := GRAVITY * m.sin angle
    let Gy := GRAVITY * m.cos angle
    match zeroFlightInches m p ZeroRange_yard yIntercept_inch Gx Gy innerFuel
        vx vy 0 (0 - p.SightHeightOverBore / 12) with
    | none => none
    | some y =>
      let da := if y * 12 > yIntercept_inch ∧ da > 0 then -da / 2 else da
      let da := if y * 12 < yIntercept_inch ∧ da < 0 then -da / 2 else da
      if |da| < MOAtoRad 0.01 then some (angle, .converged)
      else if angle > DegtoRad 45 then some (angle, .exceeded45)
      else zeroSearchInches m p ZeroRange_yard yIntercept_inch innerFuel fuel (angle + da) da

/-- The zero search with the intercept taken in inches, as documented: the counterpart of
`CalculateSightToBoreAngle` built on `zeroSearchInches`. -/
def zeroAngleInches (m : MathOps α) (p : Projectile α) (fuel innerFuel : Nat)
    (ZeroRange_yard yIntercept_inch : α) : Option α :=
  match zeroSearchInches m p ZeroRange_yard yIntercept_inch innerFuel fuel 0 (DegtoRad 14) with
  | none => none
  | some (angle, _) => some (RadtoDeg angle)

/-- One call of `Update` by a caller: the amount by which the caller advances the public
member `t` before the call (as the loop of `SolveAll` does), and the three arguments. -/
structure UpdateCall (α : Type) where
  tAdvance : α
  dt : α
  headwind_mile_hr : α
  crosswind_mile_hr : α

/-- A sequence of `Update` calls on one projectile; `none` when a call writes outside the
buffer. -/
def runUpdates (m : MathOps α) : Projectile α → List (UpdateCall α) → Option (Projectile α)
  | p, [] => some p
  | p, c :: cs =>
    match Update m { p with t := p.t + c.tAdvance } c.dt c.headwind_mile_hr
        c.crosswind_mile_hr with
    | none => none
    | some (_, _, p1) => runUpdates m p1 cs

/-- The ordering facts about the samples recorded so far: the count is not negative, no
sample has been recorded only while `x` is still `0`, sample 0 has `Range = 0`, and the
sample with index `k` has a `Range` of at least `k` yards. -/
def SamplesInv (p : Projectile α) : Prop :=
  0 ≤ p.ProjectilePathCount ∧ (p.ProjectilePathCount = 0 → p.x = 0) ∧
  (0 < p.ProjectilePathCount → (p.aProjectilePath 0).Range = 0) ∧
  ∀ k : Nat, (k : Int) < p.ProjectilePathCount → (k : α) ≤ (p.aProjectilePath k).Range

/-- The configuration members of `q` are those of `p`: `DragFunction`, `DragCoefficient`,
`MuzzleVelocity` and `SightHeightOverBore`. -/
def SameConfig (p q : Projectile α) : Prop :=
  q.DragFunction = p.DragFunction ∧ q.DragCoefficient = p.DragCoefficient ∧
  q.MuzzleVelocity = p.MuzzleVelocity ∧ q.SightHeightOverBore = p.SightHeightOverBore

/-- The value `A * b^M` that the segment `e = (lowerBound, A, M)` of a breakpoint list gives
at the speed `b`, for the power function `pow`. -/
def segmentValue (pow : α → α → α) (e : α × α × α) (b : α) : α := e.2.1 * pow b e.2.2

/-- The segments `e1` and `e2`, adjacent at the lower bound of `e1`, give values there that
differ by no more than `tol` times either value. -/
def JumpWithin (pow : α → α → α) (tol : α) (e1 e2 : α × α × α) : Prop :=
  |segmentValue pow e1 e1.1 - segmentValue pow e2 e1.1| ≤ tol * segmentValue pow e1 e1.1 ∧
  |segmentValue pow e1 e1.1 - segmentValue pow e2 e1.1| ≤ tol * segmentValue pow e2 e1.1

/-- The constructor `Projectile::Projectile`: it stores the four configuration values and
allocates the buffer; every other member keeps whatever the memory held, given as `junk`. -/
def Projectile.new (junk : Projectile α) (DragCoefficient : α) (DragFunction : EDragFunction)
    (MuzzleVelocity SightHeightOverBore : α) : Projectile α :=
  { junk with
    DragCoefficient := DragCoefficient
    DragFunction := DragFunction
    MuzzleVelocity := MuzzleVelocity
    SightHeightOverBore := SightHeightOverBore }

/-- A sample with every field zero. -/
def ProjectilePath.zero : ProjectilePath α := ⟨0, 0, 0, 0, 0, 0, 0, 0, 0⟩

/-- A projectile whose members are all zero (variant `G1`), used as the prior memory
content in evaluated examples. -/
def Projectile.zero : Projectile α :=
  { vx := 0, vy := 0, x := 0, y := 0, ProjectilePathCount := 0
    aProjectilePath := fun _ => ProjectilePath.zero
    t := 0, Gx := 0, Gy := 0, DragFunction := .G1
    DragCoefficient := 0, MuzzleVelocity := 0, SightHeightOverBore := 0 }

/-- Rational stand-ins for the C library functions, for evaluating the model on concrete
inputs: `sqrt` is exact on squares of rationals, `sin`, `cos` and `atan` are exact at `0`,
and `pow` returns its first argument.  The evaluated examples use them only where they are
exact or through a bound that the C library function satisfies as well. -/
def ratOps : MathOps ℚ where
  sqrt := Rat.sqrt
  sin := fun x => x
  cos := fun x => 1 - x * x / 2
  atan := fun x => x
  pow := fun x _ => x

/-- The projectile built by `main`: `Projectile(0.465, G1, 2650, 1.6)`. -/
def mainProjectile : Projectile ℚ := Projectile.new Projectile.zero 0.465 .G1 2650 1.6

/-- A log of the outer loop of `Projectile::CalculateSightToBoreAngle`: the value the local
`da` has at the end of each iteration that `CalculateSightToBoreAngle.search` performs with
the same arguments, in order.  It follows the loop of `search` step for step and adds
nothing to it but the log. -/
def CalculateSightToBoreAngle.steps (m : MathOps α) (p : Projectile α)
    (ZeroRange_yard yIntercept_inch : α) (innerFuel : Nat) : Nat → α → α → List α
  | 0, _, _ => []
  | fuel + 1, angle, da =>
    let vy := p.MuzzleVelocity * m.sin angle
    let vx := p.MuzzleVelocity * m.cos angle
    let Gx := GRAVITY * m.sin angle
    let Gy := GRAVITY * m.cos angle
    match CalculateSightToBoreAngle.flight m p ZeroRange_yard yIntercept_inch Gx Gy innerFuel
        vx vy 0 (0 - p.SightHeightOverBore / 12) with
    | none => []
    | some y =>
      let da := if y > yIntercept_inch ∧ da > 0 then -da / 2 else da
      let da := if y < yIntercept_inch ∧ da < 0 then -da / 2 else da
      if |da| < MOAtoRad 0.01 then [da]
      else if angle > DegtoRad 45 then [da]
      else da :: CalculateSightToBoreAngle.steps m p ZeroRange_yard yIntercept_inch innerFuel
        fuel (angle + da) da

/-- The number of entries of a log of steps that differ from the step before them, the
step before the first entry being `a`. -/
def reversals : α → List α → Nat
  | _, [] => 0
  | a, b :: l => (if b = a then 0 else 1) + reversals b l

/-- A sample with its two windage members set to zero. -/
def ProjectilePath.withoutWindage (s : ProjectilePath α) : ProjectilePath α :=
  { s with Windage := 0, WindageMOA := 0 }

/-- A projectile with the two windage members of every sample set to zero. -/
def Projectile.withoutWindage (p : Projectile α) : Projectile α :=
  { p with aProjectilePath := fun k => (p.aProjectilePath k).withoutWindage }

/-- A projectile of the variant `G3`, which has no table, otherwise as built by `main`, after
`Initialize(0, 0)`. -/
def g3Start : Projectile ℚ :=
  Initialize ratOps (Projectile.new Projectile.zero 0.465 .G3 2650 1.6) 0 0

end Defs

section Thms
variable {α : Type} [LinearOrderedField α]

/-! ### The drag model -/

theorem dragSwitch_eq_scanTable (df : EDragFunction) (vp : α) :
    dragSwitch df vp = scanTable (DragTable α df) vp := by
  cases df <;> rfl

theorem scanTable_eq_find (l : List (α × α × α)) (vp : α) :
    scanTable l vp =
      match l.find? (fun e => decide (e.1 < vp)) with
      | some e => (e.2.1, e.2.2)
      | none => (-1, -1) := by
  induction l with
  | nil => rfl
  | cons e es ih =>
    by_cases h : e.1 < vp
    · simp [scanTable, List.find?_cons, h]
    · simp [scanTable, List.find?_cons, h, ih]

theorem DragTable_pos (df : EDragFunction) :
    ∀ e ∈ DragTable α df, 0 ≤ e.1 ∧ 0 < e.2.1 ∧ 0 < e.2.2 := by
  cases df <;> simp only [DragTable, List.forall_mem_cons, List.not_mem_nil, false_implies, implies_true, and_true] <;> norm_num

theorem DragTable_sorted (df : EDragFunction) :
    (DragTable α df).Pairwise (fun a b => b.1 < a.1) := by
  cases df <;> simp only [DragTable, List.pairwise_cons, List.forall_mem_cons, List.not_mem_nil, false_implies, implies_true, and_true, List.Pairwise.nil, List.mem_cons, forall_eq_or_imp] <;> norm_num

theorem DragTable_find_some (df : EDragFunction) (hdf : df ≠ .G3 ∧ df ≠ .G4) (speed : α)
    (h0 : 0 < speed) :
    ∃ e, (DragTable α df).find? (fun e => decide (e.1 < speed)) = some e := by
  have hz : ∃ e ∈ DragTable α df, e.1 = 0 := by
    obtain ⟨h3, h4⟩ := hdf
    cases df <;> first | exact absurd rfl h3 | exact absurd rfl h4 | simp [DragTable]
  obtain ⟨e, he, hez⟩ := hz
  have hs : ((DragTable α df).find? (fun e => decide (e.1 < speed))).isSome := by
    rw [List.find?_isSome]
    exact ⟨e, he, by simpa [hez] using h0⟩
  exact Option.isSome_iff_exists.mp hs

/-- C1: for a variant with a table (not `G3`, not `G4`), `0 < speed < 10000` and any
ballistic coefficient, `DragRetardationVelocity` returns `A * speed^M / DragCoefficient`
for the `(A, M)` of the first entry of the variant's breakpoint list, scanned from the
highest threshold downward, whose lower bound is strictly below `speed`; the list is
sorted by strictly descending lower bound. -/
theorem DragRetardationVelocity_table (m : MathOps α) (p : Projectile α) (speed : α)
    (hdf : p.DragFunction ≠ .G3 ∧ p.DragFunction ≠ .G4) (h0 : 0 < speed)
    (h1 : speed < 10000) :
    (DragTable α p.DragFunction).Pairwise (fun a b => b.1 < a.1) ∧
    ∃ e, (DragTable α p.DragFunction).find? (fun e => decide (e.1 < speed)) = some e ∧
      DragRetardationVelocity m p speed = e.2.1 * m.pow speed e.2.2 / p.DragCoefficient := by
  refine ⟨DragTable_sorted _, ?_⟩
  obtain ⟨e, he⟩ := DragTable_find_some p.DragFunction hdf speed h0
  refine ⟨e, he, ?_⟩
  obtain ⟨_, hA, hM⟩ := DragTable_pos p.DragFunction e (List.mem_of_find?_eq_some he)
  have hsw : dragSwitch p.DragFunction speed = (e.2.1, e.2.2) := by
    rw [dragSwitch_eq_scanTable, scanTable_eq_find, he]
  have hA1 : e.2.1 ≠ -1 := by linarith
  have hM1 : e.2.2 ≠ -1 := by linarith
  simp only [DragRetardationVelocity, hsw]
  rw [if_pos ⟨hA1, hM1, h0, h1⟩]

/-- The example of C1: `G1` at 2650 ft/s uses `A = 3.209559783129881e-03`, `M = 1.575`. -/
theorem DragRetardationVelocity_G1_2650 (m : MathOps α) (p : Projectile α)
    (hdf : p.DragFunction = .G1) :
    DragRetardationVelocity m p 2650 =
      3.209559783129881e-03 * m.pow 2650 1.575 / p.DragCoefficient := by
  simp only [DragRetardationVelocity, hdf, dragSwitch]
  norm_num

theorem DragRetardationVelocity_table_witness :
    (mainProjectile.DragFunction ≠ .G3 ∧ mainProjectile.DragFunction ≠ .G4) ∧
    (0 : ℚ) < 2650 ∧ (2650 : ℚ) < 10000 ∧
    ((DragTable ℚ mainProjectile.DragFunction).Pairwise (fun a b => b.1 < a.1) ∧
    ∃ e, (DragTable ℚ mainProjectile.DragFunction).find? (fun e => decide (e.1 < 2650)) = some e ∧
      DragRetardationVelocity ratOps mainProjectile 2650 =
        e.2.1 * ratOps.pow 2650 e.2.2 / mainProjectile.DragCoefficient) :=
  ⟨by simp [mainProjectile, Projectile.new], by norm_num, by norm_num,
    DragRetardationVelocity_table ratOps mainProjectile 2650
      (by simp [mainProjectile, Projectile.new]) (by norm_num) (by norm_num)⟩

/-- C2: for every variant and every ballistic coefficient, `DragRetardationVelocity` returns
the failure signal `-1` when `speed ≤ 0` or `speed ≥ 10000`. -/
theorem DragRetardationVelocity_out_of_range (m : MathOps α) (p : Projectile α) (speed : α)
    (h : speed ≤ 0 ∨ 10000 ≤ speed) :
    DragRetardationVelocity m p speed = -1 := by
  simp only [DragRetardationVelocity]
  rw [if_neg]
  rintro ⟨_, _, h0, h1⟩
  rcases h with h | h
  · exact absurd h0 (not_lt.mpr h)
  · exact absurd h1 (not_lt.mpr h)

theorem DragRetardationVelocity_out_of_range_witness :
    ((10000 : ℚ) ≤ 0 ∨ (10000 : ℚ) ≤ 10000) ∧
    DragRetardationVelocity ratOps mainProjectile 10000 = -1 :=
  ⟨Or.inr le_rfl, DragRetardationVelocity_out_of_range ratOps mainProjectile 10000 (Or.inr le_rfl)⟩

/-- C3: for the two variants without a table, `G3` and `G4`, `DragRetardationVelocity`
returns the failure signal `-1` for every speed and every ballistic coefficient. -/
theorem DragRetardationVelocity_no_table (m : MathOps α) (p : Projectile α) (speed : α)
    (h : p.DragFunction = .G3 ∨ p.DragFunction = .G4) :
    DragRetardationVelocity m p speed = -1 := by
  have hsw : dragSwitch p.DragFunction speed = (-1, -1) := by
    rcases h with h | h <;> rw [h] <;> rfl
  simp only [DragRetardationVelocity, hsw]
  rw [if_neg]
  rintro ⟨hA, _⟩
  exact hA rfl

theorem DragRetardationVelocity_no_table_witness :
    ((Projectile.new Projectile.zero (0.465 : ℚ) .G3 2650 1.6).DragFunction = .G3 ∨
      (Projectile.new Projectile.zero (0.465 : ℚ) .G3 2650 1.6).DragFunction = .G4) ∧
    DragRetardationVelocity ratOps (Projectile.new Projectile.zero 0.465 .G3 2650 1.6) 2650
      = -1 :=
  ⟨Or.inl rfl, DragRetardationVelocity_no_table ratOps _ 2650 (Or.inl rfl)⟩

/-! ### The atmospheric correction -/

/-- C4: `DragCoefficientAtmosphericCorrection` replaces the stored `DragCoefficient` by
`base * FA * (1 + FT - FP) * FR` and returns the new stored value, with the four factors
given by the closed formulas of the altitude, temperature, pressure and humidity terms. -/
theorem DragCoefficientAtmosphericCorrection_formula (p : Projectile α) (alt P T RH : α) :
    let FA := 1 / (-4e-15 * alt ^ 3 + 4e-10 * alt ^ 2 - 3e-5 * alt + 1)
    let Tstd := -0.0036 * alt + 59
    let FT := (T - Tstd) / (459.6 + Tstd)
    let FP := (P - 29.53) / 29.53
    let VPw := 4e-6 * T ^ 3 - 0.0004 * T ^ 2 + 0.0234 * T - 0.2517
    let FR := 0.995 * P / (P - 0.3783 * RH * VPw)
    (DragCoefficientAtmosphericCorrection p alt P T RH).2.DragCoefficient
        = p.DragCoefficient * FA * (1 + FT - FP) * FR ∧
      (DragCoefficientAtmosphericCorrection p alt P T RH).1
        = (DragCoefficientAtmosphericCorrection p alt P T RH).2.DragCoefficient := by
  intro FA Tstd FT FP VPw FR
  refine ⟨?_, rfl⟩
  simp only [DragCoefficientAtmosphericCorrection, CalculateFactorA, CalculateFactorT,
    CalculateFactorRH, CalculateFactorP, FA, Tstd, FT, FP, VPw, FR]
  ring

/-! ### The zero search and the unit of its intercept -/

theorem mul_twelve_lt (y c : α) : y * 12 < 12 * c ↔ y < c := by
  constructor <;> intro h <;> linarith

theorem twelve_mul_lt (y c : α) : 12 * c < y * 12 ↔ c < y := by
  constructor <;> intro h <;> linarith

theorem flight_eq_zeroFlightInches (m : MathOps α) (p : Projectile α) (Z c Gx Gy : α) :
    ∀ (fuel : Nat) (vx vy x y : α),
      CalculateSightToBoreAngle.flight m p Z c Gx Gy fuel vx vy x y
        = zeroFlightInches m p Z (12 * c) Gx Gy fuel vx vy x y := by
  intro fuel
  induction fuel with
  | zero => intro vx vy x y; rfl
  | succ fuel ih =>
    intro vx vy x y
    simp only [CalculateSightToBoreAngle.flight, zeroFlightInches, mul_twelve_lt, ih]

theorem search_eq_zeroSearchInches (m : MathOps α) (p : Projectile α) (Z c : α)
    (innerFuel : Nat) :
    ∀ (fuel : Nat) (angle da : α),
      CalculateSightToBoreAngle.search m p Z c innerFuel fuel angle da
        = zeroSearchInches m p Z (12 * c) innerFuel fuel angle da := by
  intro fuel
  induction fuel with
  | zero => intro angle da; rfl
  | succ fuel ih =>
    intro angle da
    simp only [CalculateSightToBoreAngle.search, zeroSearchInches, gt_iff_lt,
      flight_eq_zeroFlightInches, ih, mul_twelve_lt, twelve_mul_lt]

/-- C5 (the code deviates from it): `CalculateSightToBoreAngle` compares the height `y`,
which it keeps in feet, with `yIntercept_inch` as given.  Called with an intercept `c` it
therefore returns what the search specified in inches returns for the intercept `12 * c`;
for the documented example, 1.5 inches at 100 yards, it solves for 18 inches. -/
theorem CalculateSightToBoreAngle_intercept_in_feet (m : MathOps α) (p : Projectile α)
    (fuel innerFuel : Nat) (ZeroRange_yard c : α) :
    CalculateSightToBoreAngle m p fuel innerFuel ZeroRange_yard c
        = zeroAngleInches m p fuel innerFuel ZeroRange_yard (12 * c) ∧
      CalculateSightToBoreAngle m p fuel innerFuel 100 1.5
        = zeroAngleInches m p fuel innerFuel 100 18 := by
  have h18 : (18 : α) = 12 * 1.5 := by norm_num
  simp only [CalculateSightToBoreAngle, zeroAngleInches, search_eq_zeroSearchInches, h18,
    and_self]

/-! ### One call of `Update` -/

theorem Update_some {m : MathOps α} {p : Projectile α} {dt hw cw : α} {r : Int} {dt1 : α}
    {p1 : Projectile α} (h : Update m p dt hw cw = some (r, dt1, p1)) :
    ((p.x / 3 ≥ (p.ProjectilePathCount : α) ∧ 0 ≤ p.ProjectilePathCount ∧
        p.ProjectilePathCount < BCOMP_MAXRANGE ∧
        p1.ProjectilePathCount = p.ProjectilePathCount + 1 ∧
        ∃ s : ProjectilePath α, s.Range = p.x / 3 ∧ s.Path = p.y * 12 ∧
          s.Time = p.t + dt ∧
          s.Windage = WindageCorrection cw p.MuzzleVelocity p.x (p.t + dt) ∧
          p1.aProjectilePath =
            Function.update p.aProjectilePath p.ProjectilePathCount.toNat s) ∨
      (¬ (p.x / 3 ≥ (p.ProjectilePathCount : α)) ∧
        p1.ProjectilePathCount = p.ProjectilePathCount ∧
        p1.aProjectilePath = p.aProjectilePath)) ∧
    (r = 0 ↔ (|p1.vy| > |3 * p1.vx| ∨ p1.ProjectilePathCount ≥ BCOMP_MAXRANGE)) ∧
    (r = 0 ∨ r = 1) ∧
    p1.x = p.x + dt * (p1.vx + p.vx) / 2 := by
  simp only [Update] at h
  split at h
  · exact absurd h (by simp)
  · rename_i n1 buf hrec
    split_ifs at hrec with hx hn
    · simp only [Option.some.injEq, Prod.mk.injEq] at hrec
      obtain ⟨rfl, rfl⟩ := hrec
      split_ifs at h with h1 h2 <;>
        simp only [Option.some.injEq, Prod.mk.injEq] at h <;>
        obtain ⟨rfl, rfl, rfl⟩ := h
      · refine ⟨Or.inl ⟨hx, hn.1, hn.2, rfl, _, rfl, rfl, rfl, rfl, rfl⟩, ?_, Or.inl rfl, rfl⟩
        exact iff_of_true rfl (Or.inl h1)
      · refine ⟨Or.inl ⟨hx, hn.1, hn.2, rfl, _, rfl, rfl, rfl, rfl, rfl⟩, ?_, Or.inl rfl, rfl⟩
        exact iff_of_true rfl (Or.inr h2)
      · refine ⟨Or.inl ⟨hx, hn.1, hn.2, rfl, _, rfl, rfl, rfl, rfl, rfl⟩, ?_, Or.inr rfl, rfl⟩
        exact iff_of_false (by decide) (fun hc => hc.elim h1 h2)
    · simp only [Option.some.injEq, Prod.mk.injEq] at hrec
      obtain ⟨rfl, rfl⟩ := hrec
      split_ifs at h with h1 h2 <;>
        simp only [Option.some.injEq, Prod.mk.injEq] at h <;>
        obtain ⟨rfl, rfl, rfl⟩ := h
      · refine ⟨Or.inr ⟨hx, rfl, rfl⟩, ?_, Or.inl rfl, rfl⟩
        exact iff_of_true rfl (Or.inl h1)
      · refine ⟨Or.inr ⟨hx, rfl, rfl⟩, ?_, Or.inl rfl, rfl⟩
        exact iff_of_true rfl (Or.inr h2)
      · refine ⟨Or.inr ⟨hx, rfl, rfl⟩, ?_, Or.inr rfl, rfl⟩
        exact iff_of_false (by decide) (fun hc => hc.elim h1 h2)

theorem Update_kinematics {m : MathOps α} {p : Projectile α} {dt hw cw : α} {r : Int}
    {dt1 : α} {p1 : Projectile α} (h : Update m p dt hw cw = some (r, dt1, p1)) :
    p1.vx = p.vx + (dt * (-(p.vx / m.sqrt (p.vx * p.vx + p.vy * p.vy)) *
        DragRetardationVelocity m p
          (m.sqrt (p.vx * p.vx + p.vy * p.vy) + hw * 5280.0 / 3600.0)) + dt * p.Gx) ∧
    p1.vy = p.vy + (dt * (-(p.vy / m.sqrt (p.vx * p.vx + p.vy * p.vy)) *
        DragRetardationVelocity m p
          (m.sqrt (p.vx * p.vx + p.vy * p.vy) + hw * 5280.0 / 3600.0)) + dt * p.Gy) ∧
    p1.x = p.x + dt * (p1.vx + p.vx) / 2 ∧
    p1.y = p.y + dt * (p1.vy + p.vy) / 2 ∧
    dt1 = 0.5 / m.sqrt (p.vx * p.vx + p.vy * p.vy) := by
  simp only [Update] at h
  split at h
  · exact absurd h (by simp)
  · split_ifs at h <;>
      simp only [Option.some.injEq, Prod.mk.injEq] at h <;>
      obtain ⟨-, rfl, rfl⟩ := h <;>
      exact ⟨rfl, rfl, rfl, rfl, rfl⟩

theorem Update_eq_none_iff (m : MathOps α) (p : Projectile α) (dt hw cw : α) :
    Update m p dt hw cw = none ↔
      (p.x / 3 ≥ (p.ProjectilePathCount : α) ∧
        ¬ (0 ≤ p.ProjectilePathCount ∧ p.ProjectilePathCount < BCOMP_MAXRANGE)) := by
  by_cases hx : p.x / 3 ≥ (p.ProjectilePathCount : α)
  · by_cases hn : 0 ≤ p.ProjectilePathCount ∧ p.ProjectilePathCount < BCOMP_MAXRANGE
    · simp only [Update, if_pos hx, if_pos hn]
      split_ifs <;> simp [hx, hn]
    · simp only [Update, if_pos hx, if_neg hn]
      simp [hx, hn]
  · simp only [Update, if_neg hx]
    split_ifs <;> simp [hx]

theorem Update_first (m : MathOps α) (p : Projectile α) (BoreAngle SightToBoreAngle : α)
    (dt hw cw : α) :
    ∃ r dt1 p1, Update m (Initialize m p BoreAngle SightToBoreAngle) dt hw cw
        = some (r, dt1, p1) ∧
      p1.ProjectilePathCount = 1 ∧ (p1.aProjectilePath 0).Range = 0 ∧
      (p1.aProjectilePath 0).Path = -p.SightHeightOverBore := by
  cases hU : Update m (Initialize m p BoreAngle SightToBoreAngle) dt hw cw with
  | none =>
    rw [Update_eq_none_iff] at hU
    exact absurd (by simp [Initialize, BCOMP_MAXRANGE]) hU.2
  | some res =>
    obtain ⟨r, dt1, p1⟩ := res
    refine ⟨r, dt1, p1, rfl, ?_⟩
    obtain ⟨hrec, -⟩ := Update_some hU
    rcases hrec with ⟨-, -, -, hc, s, hR, hP, -, -, hb⟩ | ⟨hx, -⟩
    · simp only [Initialize] at hc hR hP hb
      rw [hb]
      simp only [Int.toNat_zero, Function.update_same]
      refine ⟨by simpa using hc, by simpa using hR, ?_⟩
      rw [hP]
      ring
    · exact absurd (by simp [Initialize]) hx

theorem Update_record (m : MathOps α) (p : Projectile α) (dt hw cw : α)
    (h0 : 0 ≤ p.ProjectilePathCount) (h1 : p.ProjectilePathCount < BCOMP_MAXRANGE)
    (hx : p.x / 3 ≥ (p.ProjectilePathCount : α)) :
    ∃ r dt1 p1, Update m p dt hw cw = some (r, dt1, p1) ∧
      p1.ProjectilePathCount = p.ProjectilePathCount + 1 ∧
      (p1.aProjectilePath p.ProjectilePathCount.toNat).Range = p.x / 3 ∧
      (∀ k, k ≠ p.ProjectilePathCount.toNat → p1.aProjectilePath k = p.aProjectilePath k) := by
  cases hU : Update m p dt hw cw with
  | none =>
    rw [Update_eq_none_iff] at hU
    exact absurd ⟨h0, h1⟩ hU.2
  | some res =>
    obtain ⟨r, dt1, p1⟩ := res
    refine ⟨r, dt1, p1, rfl, ?_⟩
    obtain ⟨hcase, -⟩ := Update_some hU
    rcases hcase with ⟨-, -, -, hc, s, hR, -, -, -, hb⟩ | ⟨hnx, -⟩
    · refine ⟨hc, ?_, fun k hk => ?_⟩
      · rw [hb, Function.update_same, hR]
      · rw [hb, Function.update_noteq hk]
    · exact absurd hx hnx

theorem Update_count {m : MathOps α} {p : Projectile α} {dt hw cw : α} {r : Int}
    {dt1 : α} {p1 : Projectile α} (h : Update m p dt hw cw = some (r, dt1, p1))
    (h0 : 0 ≤ p.ProjectilePathCount) (h1 : p.ProjectilePathCount < BCOMP_MAXRANGE) :
    0 ≤ p1.ProjectilePathCount ∧ p1.ProjectilePathCount ≤ BCOMP_MAXRANGE ∧
      (r ≠ 0 → p1.ProjectilePathCount < BCOMP_MAXRANGE) := by
  obtain ⟨hcase, hr, -, -⟩ := Update_some h
  have hlt : r ≠ 0 → p1.ProjectilePathCount < BCOMP_MAXRANGE := fun hne =>
    lt_of_not_ge (fun hge => hne (hr.mpr (Or.inr hge)))
  rcases hcase with ⟨-, -, -, hc, -⟩ | ⟨-, hc, -⟩
  · exact ⟨by omega, by omega, hlt⟩
  · exact ⟨by omega, by omega, hlt⟩

/-- C6: the first `Update` call after `Initialize`, for any time step and wind, records
sample index 0 with `Range = 0` and `Path = -SightHeightOverBore` and sets
`ProjectilePathCount` to 1. -/
theorem Update_after_Initialize (m : MathOps α) (p : Projectile α)
    (BoreAngle SightToBoreAngle dt headwind_mile_hr crosswind_mile_hr : α) :
    ∃ r dt1 p1,
      Update m (Initialize m p BoreAngle SightToBoreAngle) dt headwind_mile_hr
        crosswind_mile_hr = some (r, dt1, p1) ∧
      p1.ProjectilePathCount = 1 ∧ (p1.aProjectilePath 0).Range = 0 ∧
      (p1.aProjectilePath 0).Path = -p.SightHeightOverBore :=
  Update_first m p BoreAngle SightToBoreAngle dt headwind_mile_hr crosswind_mile_hr

/-! ### The ranges of the recorded samples -/

theorem SamplesInv_Initialize (m : MathOps α) (p : Projectile α) (ba sa : α) :
    SamplesInv (Initialize m p ba sa) := by
  refine ⟨le_refl _, fun _ => rfl, fun h => absurd h (lt_irrefl _), fun k hk => ?_⟩
  simp only [Initialize] at hk
  omega

theorem SamplesInv_setT {p : Projectile α} (h : SamplesInv p) (t1 : α) :
    SamplesInv { p with t := t1 } := h

theorem SamplesInv_Update {m : MathOps α} {p : Projectile α} {dt hw cw : α} {r : Int}
    {dt1 : α} {p1 : Projectile α} (h : Update m p dt hw cw = some (r, dt1, p1))
    (hI : SamplesInv p) :
    SamplesInv p1 ∧ p1.ProjectilePathCount ≤ p.ProjectilePathCount + 1 := by
  obtain ⟨h0, hx0, hR0, hk⟩ := hI
  obtain ⟨hcase, -⟩ := Update_some h
  rcases hcase with ⟨hx, -, -, hc, s, hR, -, -, -, hb⟩ | ⟨hx, hc, hb⟩
  · refine ⟨⟨by omega, fun hz => by omega, fun _ => ?_, fun k hkc => ?_⟩, by omega⟩
    · rw [hb]
      by_cases hz : p.ProjectilePathCount = 0
      · rw [hz, Int.toNat_zero, Function.update_same, hR, hx0 hz, zero_div]
      · have hne : (0 : Nat) ≠ p.ProjectilePathCount.toNat := by omega
        rw [Function.update_noteq hne]
        exact hR0 (by omega)
    · rw [hb]
      by_cases hkn : k = p.ProjectilePathCount.toNat
      · rw [hkn, Function.update_same, hR]
        have hcast : ((p.ProjectilePathCount.toNat : Nat) : α) = (p.ProjectilePathCount : α) := by
          have h1 : ((p.ProjectilePathCount.toNat : Nat) : Int) = p.ProjectilePathCount :=
            Int.toNat_of_nonneg h0
          calc ((p.ProjectilePathCount.toNat : Nat) : α)
              = (((p.ProjectilePathCount.toNat : Nat) : Int) : α) := (Int.cast_natCast _).symm
            _ = (p.ProjectilePathCount : α) := by rw [h1]
        rw [hcast]
        exact hx
      · rw [Function.update_noteq hkn]
        exact hk k (by omega)
  · refine ⟨⟨by omega, fun hz => ?_, fun hpos => ?_, fun k hkc => ?_⟩, by omega⟩
    · exfalso
      apply hx
      rw [hc] at hz
      rw [hz, hx0 hz]
      simp
    · rw [hb]; exact hR0 (by omega)
    · rw [hb]; exact hk k (by omega)

theorem runUpdates_inv (m : MathOps α) (calls : List (UpdateCall α)) :
    ∀ (p p' : Projectile α), SamplesInv p → runUpdates m p calls = some p' →
      SamplesInv p' ∧ p'.ProjectilePathCount ≤ p.ProjectilePathCount + calls.length := by
  induction calls with
  | nil =>
    intro p p' hI h
    simp only [runUpdates, Option.some.injEq] at h
    subst h
    exact ⟨hI, by simp⟩
  | cons c cs ih =>
    intro p p' hI h
    simp only [runUpdates] at h
    split at h
    · exact absurd h (by simp)
    · rename_i r dt1 p1 hU
      obtain ⟨hI1, hc1⟩ := SamplesInv_Update hU (SamplesInv_setT hI _)
      obtain ⟨hI2, hc2⟩ := ih p1 p' hI1 h
      refine ⟨hI2, ?_⟩
      simp only [List.length_cons, Nat.cast_add, Nat.cast_one]
      simp only at hc1
      omega

theorem SolveAll_loop_runUpdates (m : MathOps α) (hw cw : α) (n : Int) (p' : Projectile α) :
    ∀ (fuel : Nat) (dt a : α) (p : Projectile α),
      SolveAll.loop m hw cw fuel dt { p with t := p.t + a } = .done n p' →
      ∃ calls : List (UpdateCall α), calls.length ≤ fuel ∧ runUpdates m p calls = some p' := by
  intro fuel
  induction fuel with
  | zero =>
    intro dt a p h
    simp [SolveAll.loop] at h
  | succ fuel ih =>
    intro dt a p h
    simp only [SolveAll.loop] at h
    split at h
    · exact absurd h (by simp)
    · rename_i r dt1 p1 hU
      split_ifs at h with hr
      · simp only [SolveOutcome.done.injEq] at h
        refine ⟨[⟨a, dt, hw, cw⟩], by simp, ?_⟩
        simp only [runUpdates, hU, h.2]
      · obtain ⟨calls, hlen, hrun⟩ := ih dt1 dt1 p1 h
        refine ⟨⟨a, dt, hw, cw⟩ :: calls, by simp [hlen], ?_⟩
        simp only [runUpdates, hU, hrun]

theorem SolveAll_runUpdates {m : MathOps α} {fuel : Nat} {ws wa : α} {p : Projectile α}
    {n : Int} {p' : Projectile α} (h : SolveAll m fuel ws wa p = .done n p') :
    ∃ calls : List (UpdateCall α), calls.length ≤ fuel ∧ runUpdates m p calls = some p' := by
  have hp : { p with t := p.t + 0 } = p := by
    cases p; simp
  simp only [SolveAll] at h
  rw [← hp] at h
  exact SolveAll_loop_runUpdates m _ _ n p' fuel 0 0 p h

theorem Projectile_addT_zero (p : Projectile α) : { p with t := p.t + 0 } = p := by
  cases p; simp

theorem runUpdates_single (m : MathOps α) (p p1 : Projectile α) (dt hw cw : α) (r : Int)
    (dt1 : α) (hU : Update m p dt hw cw = some (r, dt1, p1)) :
    runUpdates m p [⟨0, dt, hw, cw⟩] = some p1 := by
  simp only [runUpdates, Projectile_addT_zero, hU]

theorem runUpdates_repeated_range (m : MathOps α) (junk : Projectile α)
    (hsin : m.sin 0 = 0) (hcos : m.cos 0 = 1)
    (hsqrt : m.sqrt (2650 * 2650 + 0 * 0) = 2650)
    (hpow : m.pow 2650 1.575 ≤ 2650 * 2650) :
    ∃ p', runUpdates m (Initialize m (Projectile.new junk 0.465 .G1 2650 1.6) 0 0)
        [⟨0, 1 / 100, 0, 0⟩, ⟨0, 0, 0, 0⟩, ⟨0, 0, 0, 0⟩] = some p' ∧
      p'.ProjectilePathCount = 3 ∧
      (p'.aProjectilePath 1).Range = (p'.aProjectilePath 2).Range := by
  -- the state on which the first call runs
  obtain ⟨q, hq⟩ : ∃ q : Projectile α,
      q = { Initialize m (Projectile.new junk 0.465 .G1 2650 1.6) 0 0 with
        t := (Initialize m (Projectile.new junk 0.465 .G1 2650 1.6) 0 0).t + 0 } := ⟨_, rfl⟩
  have hvx : q.vx = 2650 := by
    rw [hq]; simp [Initialize, Projectile.new, DegtoRad, hcos]
  have hvy : q.vy = 0 := by
    rw [hq]; simp [Initialize, Projectile.new, DegtoRad, hsin]
  have hGx : q.Gx = 0 := by
    rw [hq]; simp [Initialize, Projectile.new, DegtoRad, hsin]
  have hqx : q.x = 0 := by rw [hq]; rfl
  have hqc : q.ProjectilePathCount = 0 := by rw [hq]; rfl
  have hdf : q.DragFunction = .G1 := by rw [hq]; rfl
  have hbc : q.DragCoefficient = 0.465 := by rw [hq]; rfl
  -- first call: a step of 1/100 s
  obtain ⟨r1, d1, p1, hU1, hc1, -, -⟩ := Update_record m q (1 / 100) 0 0
    (by rw [hqc]) (by rw [hqc]; decide) (by rw [hqx, hqc]; simp)
  obtain ⟨hk1, -, hx1, -, -⟩ := Update_kinematics hU1
  have harg : m.sqrt (q.vx * q.vx + q.vy * q.vy) + 0 * 5280.0 / 3600.0 = 2650 := by
    rw [hvx, hvy, hsqrt]; norm_num
  rw [harg, DragRetardationVelocity_G1_2650 m q hdf, hvx, hvy, hsqrt, hGx, hbc] at hk1
  have hp1x : (6 : α) ≤ p1.x := by
    rw [hx1, hk1, hqx, hvx]
    have hd : 3.209559783129881e-03 * m.pow 2650 1.575 / (0.465 : α) ≤ 50000 := by
      rw [div_le_iff₀ (by norm_num)]
      linarith
    have hself : (2650 : α) / 2650 = 1 := by norm_num
    rw [hself]
    linarith
  rw [hqc] at hc1
  -- second call: a step of 0 s
  obtain ⟨r2, d2, p2, hU2, hc2, hR2, -⟩ := Update_record m
    { p1 with t := p1.t + 0 } 0 0 0
    (by simp only [hc1]; decide) (by simp only [hc1]; decide)
    (by simp only [hc1]; push_cast; linarith)
  obtain ⟨-, -, hx2, -, -⟩ := Update_kinematics hU2
  simp only [hc1] at hc2 hR2
  have hp2x : p2.x = p1.x := by rw [hx2]; simp
  -- third call: a step of 0 s
  obtain ⟨r3, d3, p3, hU3, hc3, hR3, hB3⟩ := Update_record m
    { p2 with t := p2.t + 0 } 0 0 0
    (by simp only [hc2]; decide) (by simp only [hc2]; decide)
    (by simp only [hc2, hp2x]; push_cast; linarith)
  simp only [hc2] at hc3 hR3 hB3
  refine ⟨p3, ?_, by rw [hc3]; rfl, ?_⟩
  · simp only [runUpdates]
    rw [← hq, hU1]
    simp only [hU2, hU3]
  · have h12 : p3.aProjectilePath 1 = p2.aProjectilePath 1 := hB3 1 (by decide)
    have hR2' : (p2.aProjectilePath 1).Range = p1.x / 3 := hR2
    have hR3' : (p3.aProjectilePath 2).Range = p2.x / 3 := hR3
    rw [h12, hR2', hR3', hp2x]

theorem ratOps_sqrt_2650 : ratOps.sqrt (2650 * 2650 + 0 * 0) = 2650 := by
  have h : (2650 * 2650 + 0 * 0 : ℚ) = 2650 * 2650 := by norm_num
  simp only [ratOps]
  rw [h, Rat.sqrt_eq]
  norm_num

/-- C7, as stated, fails: on the projectile of `main` after `Initialize(0, 0)`, a call of
`Update` with `dt = 1/100` followed by two calls with `dt = 0` records three samples, and
sample 2 does not have a `Range` strictly greater than that of sample 1. -/
theorem runUpdates_ranges_not_strict :
    ∃ p', runUpdates ratOps (Initialize ratOps mainProjectile 0 0)
        [⟨0, 1 / 100, 0, 0⟩, ⟨0, 0, 0, 0⟩, ⟨0, 0, 0, 0⟩] = some p' ∧
      p'.ProjectilePathCount = 3 ∧
      ¬ ((p'.aProjectilePath 1).Range < (p'.aProjectilePath 2).Range) := by
  obtain ⟨p', h, hc, hR⟩ := runUpdates_repeated_range ratOps Projectile.zero
    (by simp [ratOps]) (by simp [ratOps]) ratOps_sqrt_2650 (by simp only [ratOps]; norm_num)
  exact ⟨p', h, hc, by rw [hR]; exact lt_irrefl _⟩

/-- C7, amended: after `Initialize` and any `N` calls of `Update` (arbitrary time steps and
winds, the caller advancing `t` between calls), or after a `SolveAll` that returned within
`N` iterations, at most `N` samples are recorded, sample 0 has `Range = 0`, every recorded
sample `k` has `Range ≥ k`, and the `Range` of sample `k + 1` is strictly greater than that
of sample `k` whenever sample `k` was recorded less than one yard past its index. -/
theorem samples_ranges (m : MathOps α) (p0 : Projectile α) (BoreAngle SightToBoreAngle : α)
    (N : Nat) (p' : Projectile α)
    (h : (∃ calls : List (UpdateCall α), calls.length = N ∧
          runUpdates m (Initialize m p0 BoreAngle SightToBoreAngle) calls = some p') ∨
        (∃ ws wa n, SolveAll m N ws wa (Initialize m p0 BoreAngle SightToBoreAngle)
          = .done n p'))
    (k : Nat) (hk : (k : Int) < p'.ProjectilePathCount) :
    p'.ProjectilePathCount ≤ N ∧ (p'.aProjectilePath 0).Range = 0 ∧
      (k : α) ≤ (p'.aProjectilePath k).Range ∧
      ((k : Int) + 1 < p'.ProjectilePathCount → (p'.aProjectilePath k).Range < k + 1 →
        (p'.aProjectilePath k).Range < (p'.aProjectilePath (k + 1)).Range) := by
  have hrun : ∃ calls : List (UpdateCall α), calls.length ≤ N ∧
      runUpdates m (Initialize m p0 BoreAngle SightToBoreAngle) calls = some p' := by
    rcases h with ⟨calls, hl, hr⟩ | ⟨ws, wa, n, hs⟩
    · exact ⟨calls, le_of_eq hl, hr⟩
    · exact SolveAll_runUpdates hs
  obtain ⟨calls, hl, hr⟩ := hrun
  obtain ⟨⟨-, -, hR0, hge⟩, hcnt⟩ :=
    runUpdates_inv m calls _ _ (SamplesInv_Initialize m p0 BoreAngle SightToBoreAngle) hr
  have hc0 : (Initialize m p0 BoreAngle SightToBoreAngle).ProjectilePathCount = 0 := rfl
  rw [hc0] at hcnt
  refine ⟨by omega, hR0 (by omega), hge k hk, fun hk1 hlt => ?_⟩
  have h1 := hge (k + 1) (by push_cast; exact hk1)
  push_cast at h1
  exact lt_of_lt_of_le hlt h1

theorem samples_ranges_witness :
    ∃ p', ((∃ calls : List (UpdateCall ℚ), calls.length = 3 ∧
          runUpdates ratOps (Initialize ratOps mainProjectile 0 0) calls = some p') ∨
        (∃ ws wa n, SolveAll ratOps 3 ws wa (Initialize ratOps mainProjectile 0 0)
          = .done n p')) ∧
      ((0 : Nat) : Int) < p'.ProjectilePathCount ∧
      (p'.ProjectilePathCount ≤ (3 : Nat) ∧ (p'.aProjectilePath 0).Range = 0 ∧
        (((0 : Nat) : ℚ)) ≤ (p'.aProjectilePath 0).Range ∧
        ((((0 : Nat) : Int)) + 1 < p'.ProjectilePathCount →
          (p'.aProjectilePath 0).Range < ((0 : Nat) : ℚ) + 1 →
          (p'.aProjectilePath 0).Range < (p'.aProjectilePath (0 + 1)).Range)) := by
  obtain ⟨p', hrun, hc, -⟩ := runUpdates_repeated_range ratOps Projectile.zero
    (by simp [ratOps]) (by simp [ratOps]) ratOps_sqrt_2650 (by simp only [ratOps]; norm_num)
  have hh : (∃ calls : List (UpdateCall ℚ), calls.length = 3 ∧
          runUpdates ratOps (Initialize ratOps mainProjectile 0 0) calls = some p') ∨
        (∃ ws wa n, SolveAll ratOps 3 ws wa (Initialize ratOps mainProjectile 0 0)
          = .done n p') :=
    Or.inl ⟨[⟨0, 1 / 100, 0, 0⟩, ⟨0, 0, 0, 0⟩, ⟨0, 0, 0, 0⟩], rfl, hrun⟩
  have hk : ((0 : Nat) : Int) < p'.ProjectilePathCount := by rw [hc]; decide
  exact ⟨p', hh, hk, samples_ranges ratOps mainProjectile 0 0 3 p' hh 0 hk⟩

/-! ### The buffer capacity -/

theorem SolveAll_loop_safe (m : MathOps α) (hw cw : α) :
    ∀ (fuel : Nat) (dt : α) (p : Projectile α),
      0 ≤ p.ProjectilePathCount → p.ProjectilePathCount < BCOMP_MAXRANGE →
      match SolveAll.loop m hw cw fuel dt p with
      | .fault => False
      | .done n p' => n = p'.ProjectilePathCount ∧ 0 ≤ n ∧ n ≤ BCOMP_MAXRANGE
      | .running _ p' => 0 ≤ p'.ProjectilePathCount ∧ p'.ProjectilePathCount < BCOMP_MAXRANGE := by
  intro fuel
  induction fuel with
  | zero =>
    intro dt p h0 h1
    exact ⟨h0, h1⟩
  | succ fuel ih =>
    intro dt p h0 h1
    simp only [SolveAll.loop]
    cases hU : Update m p dt hw cw with
    | none =>
      rw [Update_eq_none_iff] at hU
      exact absurd ⟨h0, h1⟩ hU.2
    | some res =>
      obtain ⟨r, dt1, p1⟩ := res
      obtain ⟨hc0, hc1, hc2⟩ := Update_count hU h0 h1
      simp only
      split_ifs with hr
      · exact ⟨rfl, hc0, hc1⟩
      · exact ih dt1 { p1 with t := p1.t + dt1 } hc0 (hc2 hr)

/-- C8: a `SolveAll` run started on an initialised projectile never writes a sample outside
`0 .. BCOMP_MAXRANGE - 1`; while the loop runs the count stays below `BCOMP_MAXRANGE`, and
the count it returns is the stored `ProjectilePathCount`, at most `BCOMP_MAXRANGE` (50000).
A call of `Update` that leaves the count at the capacity returns stop. -/
theorem SolveAll_within_capacity (m : MathOps α) (p0 : Projectile α)
    (BoreAngle SightToBoreAngle WindSpeed_mile_hr WindAngle : α) (fuel : Nat) :
    (match SolveAll m fuel WindSpeed_mile_hr WindAngle
        (Initialize m p0 BoreAngle SightToBoreAngle) with
      | .fault => False
      | .done n p' => n = p'.ProjectilePathCount ∧ 0 ≤ n ∧ n ≤ 50000
      | .running _ p' => 0 ≤ p'.ProjectilePathCount ∧ p'.ProjectilePathCount < 50000) ∧
    (∀ (p : Projectile α) (dt hw cw : α),
      match Update m p dt hw cw with
      | none => True
      | some (r, _, p1) => p1.ProjectilePathCount < BCOMP_MAXRANGE ∨ r = 0) ∧
    BCOMP_MAXRANGE = 50000 := by
  refine ⟨?_, ?_, rfl⟩
  · exact SolveAll_loop_safe m _ _ fuel 0 (Initialize m p0 BoreAngle SightToBoreAngle)
      (le_refl _) (by show (0 : Int) < 50000; decide)
  · intro p dt hw cw
    cases hU : Update m p dt hw cw with
    | none => trivial
    | some res =>
      obtain ⟨r, dt1, p1⟩ := res
      obtain ⟨-, hr, -, -⟩ := Update_some hU
      by_cases hc : p1.ProjectilePathCount < BCOMP_MAXRANGE
      · exact Or.inl hc
      · exact Or.inr (hr.mpr (Or.inr (not_lt.mp hc)))

theorem SolveAll_steep_done (m : MathOps α) (p0 : Projectile α) (ba sa ws wa : α) (fuel : Nat)
    (hsteep : |p0.MuzzleVelocity * m.sin (DegtoRad sa)|
      > |3 * (p0.MuzzleVelocity * m.cos (DegtoRad sa))|) :
    ∃ p', SolveAll m (fuel + 1) ws wa (Initialize m p0 ba sa) = .done 1 p' := by
  obtain ⟨r, dt1, p1, hU, hc, -⟩ := Update_first m p0 ba sa 0
    (HeadWindVelocity m ws wa) (CrossWindVelocity m ws wa)
  obtain ⟨hvx, hvy, -⟩ := Update_kinematics hU
  obtain ⟨-, hr, -, -⟩ := Update_some hU
  have hvx1 : p1.vx = p0.MuzzleVelocity * m.cos (DegtoRad sa) := by
    rw [hvx]; simp [Initialize]
  have hvy1 : p1.vy = p0.MuzzleVelocity * m.sin (DegtoRad sa) := by
    rw [hvy]; simp [Initialize]
  have hr0 : r = 0 := hr.mpr (Or.inl (by rw [hvx1, hvy1]; exact hsteep))
  refine ⟨p1, ?_⟩
  simp only [SolveAll, SolveAll.loop, hU, hr0, if_true, hc]

/-! ### The return value and the windage of a sample -/

/-- C9: a call of `Update` returns stop (`0`) exactly when, in the state it leaves, the
vertical speed magnitude exceeds three times the horizontal speed magnitude or
`ProjectilePathCount` has reached `BCOMP_MAXRANGE`; otherwise it returns continue (`1`). -/
theorem Update_return (m : MathOps α) (p : Projectile α) (dt hw cw : α) (r : Int) (dt1 : α)
    (p1 : Projectile α) (h : Update m p dt hw cw = some (r, dt1, p1)) :
    (r = 0 ↔ (|p1.vy| > 3 * |p1.vx| ∨ p1.ProjectilePathCount ≥ BCOMP_MAXRANGE)) ∧
    (r ≠ 0 → r = 1) := by
  obtain ⟨-, hr, h01, -⟩ := Update_some h
  have h3 : |3 * p1.vx| = 3 * |p1.vx| := by
    rw [abs_mul, abs_of_pos (by norm_num : (0 : α) < 3)]
  rw [h3] at hr
  exact ⟨hr, fun hne => h01.resolve_left hne⟩

theorem Update_return_witness :
    ∃ dt1 p1, Update ratOps (Initialize ratOps mainProjectile 0 0) 0 0 0 = some (1, dt1, p1) ∧
      (((1 : Int) = 0 ↔ (|p1.vy| > 3 * |p1.vx| ∨ p1.ProjectilePathCount ≥ BCOMP_MAXRANGE)) ∧
        ((1 : Int) ≠ 0 → (1 : Int) = 1)) := by
  obtain ⟨r, dt1, p1, hU, hc, -⟩ := Update_first ratOps mainProjectile 0 0 0 0 0
  obtain ⟨hvx, hvy, -⟩ := Update_kinematics hU
  have hvx1 : p1.vx = 2650 := by
    rw [hvx]; simp [Initialize, mainProjectile, Projectile.new, ratOps, DegtoRad]
  have hvy1 : p1.vy = 0 := by
    rw [hvy]; simp [Initialize, mainProjectile, Projectile.new, ratOps, DegtoRad]
  have hret := Update_return ratOps _ 0 0 0 r dt1 p1 hU
  have hr : r = 1 := by
    apply hret.2
    intro h0
    rcases hret.1.mp h0 with h | h
    · rw [hvx1, hvy1] at h
      norm_num at h
    · rw [hc] at h
      exact absurd h (by decide)
  subst hr
  exact ⟨dt1, p1, hU, hret⟩

/-- C10: when a call of `Update` records a sample, the sample's `Windage` is the crosswind
in inches per second (`crosswind_mph * 17.60`) times the difference between the recorded
time of flight `t + dt` and the vacuum time of flight to the recorded range (the range in
feet, `3 * Range = x`, divided by `MuzzleVelocity`); with zero crosswind it is `0`. -/
theorem Update_sample_Windage (m : MathOps α) (p : Projectile α) (dt hw cw : α) (r : Int)
    (dt1 : α) (p1 : Projectile α) (h : Update m p dt hw cw = some (r, dt1, p1))
    (hrec : p1.ProjectilePathCount = p.ProjectilePathCount + 1) :
    (p1.aProjectilePath p.ProjectilePathCount.toNat).Windage =
        cw * 17.60 * ((p1.aProjectilePath p.ProjectilePathCount.toNat).Time -
          (p1.aProjectilePath p.ProjectilePathCount.toNat).Range * 3 / p.MuzzleVelocity) ∧
      (p1.aProjectilePath p.ProjectilePathCount.toNat).Time = p.t + dt ∧
      (p1.aProjectilePath p.ProjectilePathCount.toNat).Range * 3 = p.x ∧
      (cw = 0 → (p1.aProjectilePath p.ProjectilePathCount.toNat).Windage = 0) := by
  obtain ⟨hcase, -⟩ := Update_some h
  rcases hcase with ⟨-, -, -, -, s, hR, -, hT, hW, hb⟩ | ⟨-, hc, -⟩
  · rw [hb]
    simp only [Function.update_same]
    have hx : s.Range * 3 = p.x := by rw [hR]; ring
    refine ⟨?_, hT, hx, ?_⟩
    · rw [hW, hT, hx]; rfl
    · intro h0
      rw [hW, h0]
      simp [WindageCorrection]
  · rw [hc] at hrec
    exact absurd hrec (by omega)

theorem Update_sample_Windage_witness :
    ∃ r dt1 p1, Update ratOps (Initialize ratOps mainProjectile 0 0) 0 0 10
        = some (r, dt1, p1) ∧
      p1.ProjectilePathCount = (Initialize ratOps mainProjectile 0 0).ProjectilePathCount + 1 ∧
      ((p1.aProjectilePath (Initialize ratOps mainProjectile 0 0).ProjectilePathCount.toNat).Windage
          = 10 * 17.60 *
            ((p1.aProjectilePath
                (Initialize ratOps mainProjectile 0 0).ProjectilePathCount.toNat).Time -
              (p1.aProjectilePath
                (Initialize ratOps mainProjectile 0 0).ProjectilePathCount.toNat).Range * 3 /
                (Initialize ratOps mainProjectile 0 0).MuzzleVelocity) ∧
        (p1.aProjectilePath (Initialize ratOps mainProjectile 0 0).ProjectilePathCount.toNat).Time
          = (Initialize ratOps mainProjectile 0 0).t + 0 ∧
        (p1.aProjectilePath
            (Initialize ratOps mainProjectile 0 0).ProjectilePathCount.toNat).Range * 3
          = (Initialize ratOps mainProjectile 0 0).x ∧
        ((10 : ℚ) = 0 →
          (p1.aProjectilePath
            (Initialize ratOps mainProjectile 0 0).ProjectilePathCount.toNat).Windage = 0)) := by
  obtain ⟨r, dt1, p1, hU, hc, -⟩ := Update_first ratOps mainProjectile 0 0 0 0 10
  have hrec : p1.ProjectilePathCount
      = (Initialize ratOps mainProjectile 0 0).ProjectilePathCount + 1 := by
    rw [hc]; rfl
  exact ⟨r, dt1, p1, hU, hrec, Update_sample_Windage ratOps _ 0 0 10 r dt1 p1 hU hrec⟩

/-! ### The wind components -/

/-- C11: for every wind speed, `HeadWindVelocity(speed, 0)` is `speed` and
`CrossWindVelocity(speed, 0)` is `0`, for a cosine and sine with `cos 0 = 1` and
`sin 0 = 0`. -/
theorem wind_at_angle_zero (m : MathOps α) (hcos : m.cos 0 = 1) (hsin : m.sin 0 = 0)
    (speed : α) :
    HeadWindVelocity m speed 0 = speed ∧ CrossWindVelocity m speed 0 = 0 := by
  simp [HeadWindVelocity, CrossWindVelocity, DegtoRad, hcos, hsin]

theorem wind_at_angle_zero_witness :
    (MathOps.mk Real.sqrt Real.sin Real.cos Real.arctan (fun x y => x ^ y)).cos 0 = 1 ∧
    (MathOps.mk Real.sqrt Real.sin Real.cos Real.arctan (fun x y => x ^ y)).sin 0 = 0 ∧
    (HeadWindVelocity (MathOps.mk Real.sqrt Real.sin Real.cos Real.arctan (fun x y => x ^ y))
        10 0 = 10 ∧
      CrossWindVelocity (MathOps.mk Real.sqrt Real.sin Real.cos Real.arctan (fun x y => x ^ y))
        10 0 = 0) :=
  ⟨Real.cos_zero, Real.sin_zero,
    wind_at_angle_zero (MathOps.mk Real.sqrt Real.sin Real.cos Real.arctan (fun x y => x ^ y))
      Real.cos_zero Real.sin_zero 10⟩

theorem DegtoRad_90_near (d : ℝ) (hd : d = Real.pi / 2 - DegtoRad 90) :
    |d| ≤ 1 / 1000000 := by
  have h1 := Real.pi_gt_d6
  have h2 := Real.pi_lt_d6
  have h90 : DegtoRad (90 : ℝ) = 1.5707963267948966192313216916401 := by
    simp only [DegtoRad]; norm_num
  rw [hd, h90, abs_le]
  constructor
  · norm_num at h1 ⊢; linarith
  · norm_num at h2 ⊢; linarith

/-- C12: with the real cosine and sine, at a wind angle of 90 degrees the headwind
component is at most `1e-6 * |speed|` in magnitude and the crosswind component differs from
`speed` by at most `1e-6 * |speed|`. -/
theorem wind_at_angle_ninety (m : MathOps ℝ) (hcos : m.cos = Real.cos)
    (hsin : m.sin = Real.sin) (speed : ℝ) :
    |HeadWindVelocity m speed 90| ≤ 1e-6 * |speed| ∧
      |CrossWindVelocity m speed 90 - speed| ≤ 1e-6 * |speed| := by
  obtain ⟨d, hd⟩ : ∃ d : ℝ, d = Real.pi / 2 - DegtoRad 90 := ⟨_, rfl⟩
  have hdb := DegtoRad_90_near d hd
  have hang : DegtoRad (90 : ℝ) = Real.pi / 2 - d := by rw [hd]; ring
  have hc : Real.cos (DegtoRad 90) = Real.sin d := by rw [hang, Real.cos_pi_div_two_sub]
  have hs : Real.sin (DegtoRad 90) = Real.cos d := by rw [hang, Real.sin_pi_div_two_sub]
  have hsd : |Real.sin d| ≤ 1e-6 := by
    have := Real.abs_sin_le_abs (x := d)
    norm_num at hdb ⊢; linarith
  have hcd : |Real.cos d - 1| ≤ 1e-6 := by
    have h1 := Real.one_sub_sq_div_two_le_cos (x := d)
    have h2 := Real.cos_le_one d
    have h3 : d ^ 2 ≤ (1 / 1000000) ^ 2 := by
      rw [← sq_abs d]
      exact pow_le_pow_left₀ (abs_nonneg d) hdb 2
    rw [abs_le]
    constructor
    · norm_num at h3 ⊢; linarith
    · norm_num; linarith
  simp only [HeadWindVelocity, CrossWindVelocity, hcos, hsin, hc, hs]
  constructor
  · rw [abs_mul]
    exact mul_le_mul_of_nonneg_right hsd (abs_nonneg _)
  · have : Real.cos d * speed - speed = (Real.cos d - 1) * speed := by ring
    rw [this, abs_mul]
    exact mul_le_mul_of_nonneg_right hcd (abs_nonneg _)

theorem wind_at_angle_ninety_witness :
    (MathOps.mk Real.sqrt Real.sin Real.cos Real.arctan (fun x y => x ^ y)).cos = Real.cos ∧
    (MathOps.mk Real.sqrt Real.sin Real.cos Real.arctan (fun x y => x ^ y)).sin = Real.sin ∧
    (|HeadWindVelocity (MathOps.mk Real.sqrt Real.sin Real.cos Real.arctan (fun x y => x ^ y))
        10 90| ≤ 1e-6 * |(10 : ℝ)| ∧
      |CrossWindVelocity (MathOps.mk Real.sqrt Real.sin Real.cos Real.arctan (fun x y => x ^ y))
        10 90 - 10| ≤ 1e-6 * |(10 : ℝ)|) :=
  ⟨rfl, rfl,
    wind_at_angle_ninety (MathOps.mk Real.sqrt Real.sin Real.cos Real.arctan (fun x y => x ^ y))
      rfl rfl 10⟩

/-! ### Repeated and reference atmospheric correction -/

/-- C13: calling `DragCoefficientAtmosphericCorrection` twice with the same inputs leaves
the stored coefficient at `base * F * F` for the correction factor
`F = FA * (1 + FT - FP) * FR`; this equals the once-corrected value `base * F` exactly when
`base = 0`, `F = 0` or `F = 1`. -/
theorem DragCoefficientAtmosphericCorrection_twice (p : Projectile α) (alt P T RH : α) :
    let F := CalculateFactorA alt * (1 + CalculateFactorT T alt - CalculateFactorP P) *
      CalculateFactorRH T P RH
    let once := (DragCoefficientAtmosphericCorrection p alt P T RH).2
    let twice := (DragCoefficientAtmosphericCorrection once alt P T RH).2
    once.DragCoefficient = p.DragCoefficient * F ∧
      twice.DragCoefficient = p.DragCoefficient * F * F ∧
      (twice.DragCoefficient = once.DragCoefficient ↔
        (p.DragCoefficient = 0 ∨ F = 0 ∨ F = 1)) := by
  intro F once twice
  have h1 : once.DragCoefficient = p.DragCoefficient * F := rfl
  have h2 : twice.DragCoefficient = p.DragCoefficient * F * F := rfl
  refine ⟨h1, h2, ?_⟩
  rw [h1, h2]
  constructor
  · intro h
    have h0 : p.DragCoefficient * F * (F - 1) = 0 := by linear_combination h
    rcases mul_eq_zero.mp h0 with h0 | h0
    · rcases mul_eq_zero.mp h0 with h0 | h0
      · exact Or.inl h0
      · exact Or.inr (Or.inl h0)
    · exact Or.inr (Or.inr (by linear_combination h0))
  · rintro (h | h | h)
    · rw [h]; ring
    · rw [h]; ring
    · rw [h]; ring

/-- C14: at altitude 0 ft, pressure 29.53 in Hg, temperature 59 F and relative humidity
0.78 the altitude factor is `1`, the temperature and pressure factors are `0`, the
correction factor is the humidity factor alone, and that factor lies within `0.001` of `1`
(between `1.0005` and `1.0006`) without being `1`. -/
theorem correction_at_standard_conditions (p : Projectile α) :
    CalculateFactorA (0 : α) = 1 ∧ CalculateFactorT (59 : α) 0 = 0 ∧
      CalculateFactorP (29.53 : α) = 0 ∧
      (DragCoefficientAtmosphericCorrection p 0 29.53 59 0.78).2.DragCoefficient
        = p.DragCoefficient * CalculateFactorRH 59 29.53 0.78 ∧
      |CalculateFactorRH (59 : α) 29.53 0.78 - 1| ≤ 0.001 ∧
      (1.0005 : α) < CalculateFactorRH 59 29.53 0.78 ∧
      CalculateFactorRH (59 : α) 29.53 0.78 < 1.0006 ∧
      CalculateFactorRH (59 : α) 29.53 0.78 ≠ 1 := by
  have hA : CalculateFactorA (0 : α) = 1 := by simp [CalculateFactorA]
  have hT : CalculateFactorT (59 : α) 0 = 0 := by simp [CalculateFactorT]
  have hP : CalculateFactorP (29.53 : α) = 0 := by simp [CalculateFactorP]
  have hlo : (1.0005 : α) < CalculateFactorRH 59 29.53 0.78 := by
    simp only [CalculateFactorRH]; norm_num
  have hhi : CalculateFactorRH (59 : α) 29.53 0.78 < 1.0006 := by
    simp only [CalculateFactorRH]; norm_num
  refine ⟨hA, hT, hP, ?_, ?_, hlo, hhi, ?_⟩
  · simp only [DragCoefficientAtmosphericCorrection, hA, hT, hP]
    ring
  · rw [abs_le]
    constructor
    · norm_num at hlo ⊢; linarith
    · norm_num at hhi ⊢; linarith
  · intro h
    rw [h] at hlo
    norm_num at hlo

/-! ### A failed drag lookup inside a step -/

theorem DragRetardationVelocity_G3 (m : MathOps α) (p : Projectile α) (speed : α)
    (h : p.DragFunction = .G3) : DragRetardationVelocity m p speed = -1 := by
  simp [DragRetardationVelocity, h, dragSwitch]

theorem Update_sentinel_step (m : MathOps α) (junk : Projectile α)
    (hsin : m.sin 0 = 0) (hcos : m.cos 0 = 1)
    (hsqrt : m.sqrt (2650 * 2650 + 0 * 0) = 2650) :
    ∃ dt1 p1,
      Update m (Initialize m (Projectile.new junk 0.465 .G3 2650 1.6) 0 0) (1 / 100) 0 0
        = some (1, dt1, p1) ∧
      p1.vx = 2650 + 1 / 100 := by
  obtain ⟨q, hq⟩ : ∃ q : Projectile α,
      q = Initialize m (Projectile.new junk 0.465 .G3 2650 1.6) 0 0 := ⟨_, rfl⟩
  have hvx : q.vx = 2650 := by
    rw [hq]; simp [Initialize, Projectile.new, DegtoRad, hcos]
  have hvy : q.vy = 0 := by
    rw [hq]; simp [Initialize, Projectile.new, DegtoRad, hsin]
  have hGx : q.Gx = 0 := by
    rw [hq]; simp [Initialize, Projectile.new, DegtoRad, hsin]
  have hGy : q.Gy = GRAVITY := by
    rw [hq]; simp [Initialize, Projectile.new, DegtoRad, hcos]
  have hdf : q.DragFunction = .G3 := by rw [hq]; rfl
  obtain ⟨r, dt1, p1, hU, hc, -⟩ :=
    Update_first m (Projectile.new junk 0.465 .G3 2650 1.6) 0 0 (1 / 100) 0 0
  rw [← hq] at hU
  obtain ⟨hk1, hk2, -⟩ := Update_kinematics hU
  rw [DragRetardationVelocity_G3 m q _ hdf, hvx, hvy, hsqrt, hGx] at hk1
  rw [DragRetardationVelocity_G3 m q _ hdf, hvx, hvy, hsqrt, hGy] at hk2
  have hx1 : p1.vx = 2650 + 1 / 100 := by rw [hk1]; norm_num
  have hy1 : p1.vy = -(32194 / 100000) := by rw [hk2]; simp only [GRAVITY]; norm_num
  obtain ⟨-, hr, h01, -⟩ := Update_some hU
  have hr1 : r = 1 := by
    refine h01.resolve_left (fun h0 => ?_)
    rcases hr.mp h0 with h | h
    · rw [hx1, hy1] at h
      norm_num [abs_of_pos, abs_of_neg] at h
    · rw [hc] at h
      exact absurd h (by decide)
  subst hr1
  exact ⟨dt1, p1, by rw [← hq]; exact hU, hx1⟩

/-- C15, as stated, fails: on a `G3` projectile (no table) after `Initialize(0, 0)` the drag
lookup of a step with `dt = 1/100` returns `-1`, yet `Update` returns continue (`1`) and
has used the `-1` as the retardation: `vx` went from 2650 to 2650.01. -/
theorem Update_continues_after_failed_lookup :
    DragRetardationVelocity ratOps g3Start
        (ratOps.sqrt (g3Start.vx * g3Start.vx + g3Start.vy * g3Start.vy) +
          0 * 5280.0 / 3600.0) = -1 ∧
    ∃ dt1 p1,
      Update ratOps g3Start (1 / 100) 0 0 = some (1, dt1, p1) ∧
      g3Start.vx = 2650 ∧ p1.vx = 2650 + 1 / 100 :=
  ⟨DragRetardationVelocity_G3 ratOps g3Start _ rfl, by
    obtain ⟨dt1, p1, hU, hvx⟩ := Update_sentinel_step ratOps Projectile.zero
      (by simp [ratOps]) (by simp [ratOps]) ratOps_sqrt_2650
    refine ⟨dt1, p1, hU, ?_, hvx⟩
    simp [g3Start, Initialize, Projectile.new, ratOps, DegtoRad]⟩

/-- C15, amended: when the drag lookup made inside a step returns `-1`, `Update` does not
abort.  It uses `-1` as the retardation, so that `vx` becomes `vx + dt * (vx / v) + dt * Gx`
and `vy` becomes `vy + dt * (vy / v) + dt * Gy` for the speed `v` before the step, and it
returns stop only by its two tests on the resulting state. -/
theorem Update_after_failed_lookup (m : MathOps α) (p : Projectile α) (dt hw cw : α)
    (r : Int) (dt1 : α) (p1 : Projectile α)
    (h : Update m p dt hw cw = some (r, dt1, p1))
    (hfail : DragRetardationVelocity m p
      (m.sqrt (p.vx * p.vx + p.vy * p.vy) + hw * 5280.0 / 3600.0) = -1) :
    p1.vx = p.vx + (dt * (p.vx / m.sqrt (p.vx * p.vx + p.vy * p.vy)) + dt * p.Gx) ∧
    p1.vy = p.vy + (dt * (p.vy / m.sqrt (p.vx * p.vx + p.vy * p.vy)) + dt * p.Gy) ∧
    (r = 0 ↔ (|p1.vy| > |3 * p1.vx| ∨ p1.ProjectilePathCount ≥ BCOMP_MAXRANGE)) := by
  obtain ⟨hk1, hk2, -⟩ := Update_kinematics h
  obtain ⟨-, hr, -, -⟩ := Update_some h
  rw [hfail] at hk1 hk2
  refine ⟨by rw [hk1]; ring, by rw [hk2]; ring, hr⟩


theorem Update_after_failed_lookup_witness :
    ∃ dt1 p1,
      Update ratOps g3Start (1 / 100) 0 0 = some (1, dt1, p1) ∧
      DragRetardationVelocity ratOps g3Start
        (ratOps.sqrt (g3Start.vx * g3Start.vx + g3Start.vy * g3Start.vy) +
          0 * 5280.0 / 3600.0) = -1 ∧
      (p1.vx = g3Start.vx +
          (1 / 100 * (g3Start.vx / ratOps.sqrt (g3Start.vx * g3Start.vx + g3Start.vy * g3Start.vy))
            + 1 / 100 * g3Start.Gx) ∧
        p1.vy = g3Start.vy +
          (1 / 100 * (g3Start.vy / ratOps.sqrt (g3Start.vx * g3Start.vx + g3Start.vy * g3Start.vy))
            + 1 / 100 * g3Start.Gy) ∧
        ((1 : Int) = 0 ↔
          (|p1.vy| > |3 * p1.vx| ∨ p1.ProjectilePathCount ≥ BCOMP_MAXRANGE))) := by
  obtain ⟨dt1, p1, hU, -⟩ := Update_sentinel_step ratOps Projectile.zero
    (by simp [ratOps]) (by simp [ratOps]) ratOps_sqrt_2650
  have hfail := DragRetardationVelocity_G3 ratOps g3Start
    (ratOps.sqrt (g3Start.vx * g3Start.vx + g3Start.vy * g3Start.vy) + 0 * 5280.0 / 3600.0) rfl
  exact ⟨dt1, p1, hU, hfail,
    Update_after_failed_lookup ratOps g3Start (1 / 100) 0 0 1 dt1 p1 hU hfail⟩

/-! ### The exits of the zero search -/

theorem flight_skip (m : MathOps α) (p : Projectile α) (Z yI Gx Gy : α) (n : Nat)
    (vx vy y : α) (hZ : Z < 0) :
    CalculateSightToBoreAngle.flight m p Z yI Gx Gy (n + 1) vx vy 0 y = some y := by
  have h : ¬ ((0 : α) ≤ Z * 3) := by
    intro h0
    linarith
  simp only [CalculateSightToBoreAngle.flight, if_neg h]

theorem DegtoRad_14_pos : (0 : α) < DegtoRad 14 := by
  simp only [DegtoRad]; norm_num

theorem DegtoRad_45_pos : (0 : α) < DegtoRad 45 := by
  simp only [DegtoRad]; norm_num

theorem search_exceeded45 (m : MathOps α) (p : Projectile α) (Z yI : α) (innerFuel : Nat)
    (angle : α) :
    ∀ (fuel : Nat) (a da : α),
      CalculateSightToBoreAngle.search m p Z yI innerFuel fuel a da
        = some (angle, .exceeded45) → DegtoRad 45 < angle := by
  intro fuel
  induction fuel with
  | zero =>
    intro a da h
    simp [CalculateSightToBoreAngle.search] at h
  | succ fuel ih =>
    intro a da h
    simp only [CalculateSightToBoreAngle.search] at h
    split at h
    · exact absurd h (by simp)
    · split_ifs at h <;> first
        | exact ih _ _ h
        | (simp only [Option.some.injEq, Prod.mk.injEq, and_true] at h; subst h; assumption)
        | (simp at h)

theorem search_climb_step (m : MathOps α) (p : Projectile α) (Z yI : α) (n fuel : Nat)
    (angle : α) (hZ : Z < 0) (hy : 0 - p.SightHeightOverBore / 12 < yI) :
    CalculateSightToBoreAngle.search m p Z yI (n + 1) (fuel + 1) angle (DegtoRad 14)
      = if angle > DegtoRad 45 then some (angle, .exceeded45)
        else CalculateSightToBoreAngle.search m p Z yI (n + 1) fuel (angle + DegtoRad 14)
          (DegtoRad 14) := by
  have h1 : ¬ (0 - p.SightHeightOverBore / 12 > yI ∧ DegtoRad (14 : α) > 0) :=
    fun h => absurd h.1 (not_lt.mpr (le_of_lt hy))
  have h2 : ¬ (0 - p.SightHeightOverBore / 12 < yI ∧ DegtoRad (14 : α) < 0) :=
    fun h => absurd h.2 (not_lt.mpr (le_of_lt DegtoRad_14_pos))
  have h3 : ¬ (|DegtoRad (14 : α)| < MOAtoRad 0.01) := by
    rw [abs_of_pos DegtoRad_14_pos]
    simp only [DegtoRad, MOAtoRad]
    norm_num
  simp only [CalculateSightToBoreAngle.search, flight_skip m p Z yI _ _ n _ _ _ hZ, if_neg h1,
    if_neg h2, if_neg h3]

theorem search_unreachable_above (m : MathOps α) (p : Projectile α) (Z yI : α) (n fuel : Nat)
    (hZ : Z < 0) (hy : 0 - p.SightHeightOverBore / 12 < yI) :
    CalculateSightToBoreAngle.search m p Z yI (n + 1) (fuel + 5) 0 (DegtoRad 14)
      = some (0 + DegtoRad 14 + DegtoRad 14 + DegtoRad 14 + DegtoRad 14, .exceeded45) := by
  have c0 : ¬ ((0 : α) > DegtoRad 45) := not_lt.mpr (le_of_lt DegtoRad_45_pos)
  have c1 : ¬ ((0 : α) + DegtoRad 14 > DegtoRad 45) := by
    simp only [DegtoRad]; norm_num
  have c2 : ¬ ((0 : α) + DegtoRad 14 + DegtoRad 14 > DegtoRad 45) := by
    simp only [DegtoRad]; norm_num
  have c3 : ¬ ((0 : α) + DegtoRad 14 + DegtoRad 14 + DegtoRad 14 > DegtoRad 45) := by
    simp only [DegtoRad]; norm_num
  have c4 : (0 : α) + DegtoRad 14 + DegtoRad 14 + DegtoRad 14 + DegtoRad 14 > DegtoRad 45 := by
    simp only [DegtoRad]; norm_num
  rw [search_climb_step m p Z yI n (fuel + 4) _ hZ hy, if_neg c0,
    search_climb_step m p Z yI n (fuel + 3) _ hZ hy, if_neg c1,
    search_climb_step m p Z yI n (fuel + 2) _ hZ hy, if_neg c2,
    search_climb_step m p Z yI n (fuel + 1) _ hZ hy, if_neg c3,
    search_climb_step m p Z yI n fuel _ hZ hy, if_pos c4]

/-- C16, as stated, fails: on the projectile of `main`, a search that stops because the
angle exceeded 45 degrees (zero range -1 yd, intercept 0, where every trial angle leaves the
height below the intercept) returns the last trial angle like any result, a number of
degrees between 55.999 and 56.001. -/
theorem CalculateSightToBoreAngle_cap_returns_angle :
    ∃ angle deg,
      CalculateSightToBoreAngle.search ratOps mainProjectile (-1) 0 1 5 0 (DegtoRad 14)
        = some (angle, .exceeded45) ∧
      CalculateSightToBoreAngle ratOps mainProjectile 5 1 (-1) 0 = some deg ∧
      deg = RadtoDeg angle ∧ 55.999 < deg ∧ deg < 56.001 := by
  have hs := search_unreachable_above ratOps mainProjectile (-1) 0 0 0 (by norm_num)
    (by simp only [mainProjectile, Projectile.new]; norm_num)
  refine ⟨_, _, hs, ?_, rfl, ?_, ?_⟩
  · simp only [CalculateSightToBoreAngle]
    rw [hs]
  · simp only [RadtoDeg, DegtoRad]; norm_num
  · simp only [RadtoDeg, DegtoRad]; norm_num

/-- C16, amended: whichever `break` ends the search, `CalculateSightToBoreAngle` returns the
last trial angle converted to degrees; when the search stopped because the angle exceeded
45 degrees, that angle is greater than `DegtoRad(45)`, and nothing else tells the caller
that the zero was not reached. -/
theorem CalculateSightToBoreAngle_returns_last_angle (m : MathOps α) (p : Projectile α)
    (fuel innerFuel : Nat) (Z yI angle : α) (exit : ZeroExit)
    (h : CalculateSightToBoreAngle.search m p Z yI innerFuel fuel 0 (DegtoRad 14)
      = some (angle, exit)) :
    CalculateSightToBoreAngle m p fuel innerFuel Z yI = some (RadtoDeg angle) ∧
      (exit = .exceeded45 → DegtoRad 45 < angle) := by
  refine ⟨?_, fun he => ?_⟩
  · simp only [CalculateSightToBoreAngle]
    rw [h]
  · rw [he] at h
    exact search_exceeded45 m p Z yI innerFuel angle fuel 0 _ h

theorem CalculateSightToBoreAngle_returns_last_angle_witness :
    CalculateSightToBoreAngle.search ratOps mainProjectile (-1) 0 1 5 0 (DegtoRad 14)
        = some (0 + DegtoRad 14 + DegtoRad 14 + DegtoRad 14 + DegtoRad 14, .exceeded45) ∧
      (CalculateSightToBoreAngle ratOps mainProjectile 5 1 (-1) 0
          = some (RadtoDeg (0 + DegtoRad 14 + DegtoRad 14 + DegtoRad 14 + DegtoRad 14)) ∧
        (ZeroExit.exceeded45 = .exceeded45 →
          DegtoRad 45 < (0 + DegtoRad 14 + DegtoRad 14 + DegtoRad 14 + DegtoRad 14 : ℚ))) :=
  ⟨search_unreachable_above ratOps mainProjectile (-1) 0 0 0 (by norm_num)
      (by simp only [mainProjectile, Projectile.new]; norm_num),
    CalculateSightToBoreAngle_returns_last_angle ratOps mainProjectile 5 1 (-1) 0 _ _
      (search_unreachable_above ratOps mainProjectile (-1) 0 0 0 (by norm_num)
        (by simp only [mainProjectile, Projectile.new]; norm_num))⟩

/-! ### Termination of the zero search -/

theorem search_descend (m : MathOps α) (p : Projectile α) (Z yI : α) (n : Nat)
    (hZ : Z < 0) (hy : yI < 0 - p.SightHeightOverBore / 12) :
    ∀ (fuel : Nat) (angle : α), angle ≤ 0 →
      CalculateSightToBoreAngle.search m p Z yI (n + 1) fuel angle (-DegtoRad 14 / 2)
        = none := by
  have hd : (-DegtoRad 14 / 2 : α) < 0 := by
    simp only [DegtoRad]; norm_num
  have h1 : ¬ (0 - p.SightHeightOverBore / 12 > yI ∧ (-DegtoRad 14 / 2 : α) > 0) :=
    fun h => absurd h.2 (not_lt.mpr (le_of_lt hd))
  have h2 : ¬ (0 - p.SightHeightOverBore / 12 < yI ∧ (-DegtoRad 14 / 2 : α) < 0) :=
    fun h => absurd h.1 (not_lt.mpr (le_of_lt hy))
  have h3 : ¬ (|(-DegtoRad 14 / 2 : α)| < MOAtoRad 0.01) := by
    rw [abs_of_neg hd]
    simp only [DegtoRad, MOAtoRad]
    norm_num
  intro fuel
  induction fuel with
  | zero => intro angle _; rfl
  | succ fuel ih =>
    intro angle ha
    have h4 : ¬ (angle > DegtoRad 45) :=
      not_lt.mpr (le_trans ha (le_of_lt DegtoRad_45_pos))
    simp only [CalculateSightToBoreAngle.search, flight_skip m p Z yI _ _ n _ _ _ hZ,
      if_neg h1, if_neg h2, if_neg h3, if_neg h4]
    exact ih _ (by linarith)

theorem search_never_exits (m : MathOps α) (p : Projectile α) (Z yI : α) (n fuel : Nat)
    (hZ : Z < 0) (hy : yI < 0 - p.SightHeightOverBore / 12) :
    CalculateSightToBoreAngle.search m p Z yI (n + 1) fuel 0 (DegtoRad 14) = none := by
  cases fuel with
  | zero => rfl
  | succ fuel =>
    have h1 : 0 - p.SightHeightOverBore / 12 > yI ∧ DegtoRad (14 : α) > 0 :=
      ⟨hy, DegtoRad_14_pos⟩
    have hd : (-DegtoRad 14 / 2 : α) < 0 := by
      simp only [DegtoRad]; norm_num
    have h2 : ¬ (0 - p.SightHeightOverBore / 12 < yI ∧ (-DegtoRad 14 / 2 : α) < 0) :=
      fun h => absurd h.1 (not_lt.mpr (le_of_lt hy))
    have h3 : ¬ (|(-DegtoRad 14 / 2 : α)| < MOAtoRad 0.01) := by
      rw [abs_of_neg hd]
      simp only [DegtoRad, MOAtoRad]
      norm_num
    have h4 : ¬ ((0 : α) > DegtoRad 45) := not_lt.mpr (le_of_lt DegtoRad_45_pos)
    simp only [CalculateSightToBoreAngle.search, flight_skip m p Z yI _ _ n _ _ _ hZ,
      if_pos h1, if_neg h2, if_neg h3, if_neg h4]
    exact search_descend m p Z yI n hZ hy fuel _ (by linarith)

/-- C19 (the code deviates from it): on the projectile of `main`, with any math functions,
the search for zero range -1 yd and intercept -1 never leaves its outer loop.  The first
iteration reverses the step to -7 degrees, every later iteration finds the height above
the intercept, and the angle decreases without bound: no number of iterations reaches
either `break`. -/
theorem CalculateSightToBoreAngle_never_returns (m : MathOps ℚ) (fuel innerFuel : Nat) :
    CalculateSightToBoreAngle m mainProjectile fuel (innerFuel + 1) (-1) (-1) = none := by
  have h := search_never_exits m mainProjectile (-1) (-1) innerFuel fuel (by norm_num)
    (by simp only [mainProjectile, Projectile.new]; norm_num)
  simp only [CalculateSightToBoreAngle]
  rw [h]

/-! ### The configuration members -/

theorem Update_config {m : MathOps α} {p : Projectile α} {dt hw cw : α} {r : Int}
    {dt1 : α} {p1 : Projectile α} (h : Update m p dt hw cw = some (r, dt1, p1)) :
    SameConfig p p1 := by
  simp only [Update] at h
  split at h
  · exact absurd h (by simp)
  · split_ifs at h <;>
      simp only [Option.some.injEq, Prod.mk.injEq] at h <;>
      obtain ⟨-, -, rfl⟩ := h <;>
      exact ⟨rfl, rfl, rfl, rfl⟩

theorem SolveAll_loop_config (m : MathOps α) (hw cw : α) (n : Int) (p' : Projectile α) :
    ∀ (fuel : Nat) (dt : α) (p : Projectile α),
      SolveAll.loop m hw cw fuel dt p = .done n p' → SameConfig p p' := by
  intro fuel
  induction fuel with
  | zero =>
    intro dt p h
    simp [SolveAll.loop] at h
  | succ fuel ih =>
    intro dt p h
    simp only [SolveAll.loop] at h
    split at h
    · exact absurd h (by simp)
    · rename_i r dt1 p1 hU
      have hc := Update_config hU
      split_ifs at h with hr
      · simp only [SolveOutcome.done.injEq] at h
        rw [← h.2]
        exact hc
      · have h2 := ih dt1 { p1 with t := p1.t + dt1 } h
        exact ⟨h2.1.trans hc.1, h2.2.1.trans hc.2.1, h2.2.2.1.trans hc.2.2.1,
          h2.2.2.2.trans hc.2.2.2⟩

/-- C18: `Initialize`, `Update` and `SolveAll` leave `DragFunction`, `DragCoefficient`,
`MuzzleVelocity` and `SightHeightOverBore` unchanged, and
`DragCoefficientAtmosphericCorrection` changes `DragCoefficient` and no other member.
(`CalculateSightToBoreAngle` assigns only local variables: its embedding reads the
projectile and returns no projectile.) -/
theorem configuration_frame (m : MathOps α) (p : Projectile α)
    (BoreAngle SightToBoreAngle dt hw cw ws wa alt P T RH : α) (fuel : Nat)
    (r : Int) (dt1 : α) (p1 : Projectile α) (n : Int) (p' : Projectile α)
    (hU : Update m p dt hw cw = some (r, dt1, p1))
    (hS : SolveAll m fuel ws wa p = .done n p') :
    SameConfig p (Initialize m p BoreAngle SightToBoreAngle) ∧
      SameConfig p p1 ∧ SameConfig p p' ∧
      (DragCoefficientAtmosphericCorrection p alt P T RH).2
        = { p with
            DragCoefficient := (DragCoefficientAtmosphericCorrection p alt P T RH).1 } :=
  ⟨⟨rfl, rfl, rfl, rfl⟩, Update_config hU, SolveAll_loop_config m _ _ n p' fuel 0 p hS, rfl⟩

theorem configuration_frame_witness :
    ∃ r dt1 p1 p',
      Update ratOps (Initialize ratOps mainProjectile 0 80) 0 0 0 = some (r, dt1, p1) ∧
      SolveAll ratOps 1 0 0 (Initialize ratOps mainProjectile 0 80) = .done 1 p' ∧
      (SameConfig (Initialize ratOps mainProjectile 0 80)
          (Initialize ratOps (Initialize ratOps mainProjectile 0 80) 0 0) ∧
        SameConfig (Initialize ratOps mainProjectile 0 80) p1 ∧
        SameConfig (Initialize ratOps mainProjectile 0 80) p' ∧
        (DragCoefficientAtmosphericCorrection (Initialize ratOps mainProjectile 0 80)
            0 29.59 59 0.78).2
          = { Initialize ratOps mainProjectile 0 80 with
              DragCoefficient := (DragCoefficientAtmosphericCorrection
                (Initialize ratOps mainProjectile 0 80) 0 29.59 59 0.78).1 }) := by
  obtain ⟨r, dt1, p1, hU, -⟩ := Update_first ratOps mainProjectile 0 80 0 0 0
  obtain ⟨p', hS⟩ := SolveAll_steep_done ratOps mainProjectile 0 80 0 0 0 (by
    simp only [mainProjectile, Projectile.new, ratOps, DegtoRad]
    norm_num [abs_of_pos])
  exact ⟨r, dt1, p1, p', hU, hS,
    configuration_frame ratOps (Initialize ratOps mainProjectile 0 80) 0 0 0 0 0 0 0
      0 29.59 59 0.78 1 r dt1 p1 1 p' hU hS⟩

/-! ### Invalid configurations -/

/-- C17, as stated, fails: a projectile constructed with the non-positive ballistic
coefficient -0.465 is not rejected; after `Initialize(0, 0)` the first `Update` records
sample 0 and sets the count to 1. -/
theorem nonpositive_coefficient_not_rejected :
    (Projectile.new Projectile.zero (-0.465 : ℚ) .G1 2650 1.6).DragCoefficient ≤ 0 ∧
    ∃ r dt1 p1,
      Update ratOps
        (Initialize ratOps (Projectile.new Projectile.zero (-0.465) .G1 2650 1.6) 0 0) 0 0 0
        = some (r, dt1, p1) ∧
      p1.ProjectilePathCount = 1 ∧ (p1.aProjectilePath 0).Path = -1.6 := by
  refine ⟨by simp only [Projectile.new]; norm_num, ?_⟩
  obtain ⟨r, dt1, p1, hU, hc, -, hP⟩ :=
    Update_first ratOps (Projectile.new Projectile.zero (-0.465) .G1 2650 1.6) 0 0 0 0 0
  exact ⟨r, dt1, p1, hU, hc, hP⟩

/-- C17, amended: a configuration with non-positive muzzle velocity or ballistic coefficient
is not rejected.  The constructor stores the values as given, `Initialize` keeps them, and
the first `Update` after `Initialize` performs its velocity update and records sample 0. -/
theorem invalid_configuration_runs (m : MathOps α) (junk : Projectile α)
    (DragCoefficient : α) (DragFunction : EDragFunction)
    (MuzzleVelocity SightHeightOverBore BoreAngle SightToBoreAngle dt hw cw : α)
    (_h : MuzzleVelocity ≤ 0 ∨ DragCoefficient ≤ 0) :
    (Projectile.new junk DragCoefficient DragFunction MuzzleVelocity
        SightHeightOverBore).MuzzleVelocity = MuzzleVelocity ∧
    (Projectile.new junk DragCoefficient DragFunction MuzzleVelocity
        SightHeightOverBore).DragCoefficient = DragCoefficient ∧
    ∃ r dt1 p1,
      Update m (Initialize m (Projectile.new junk DragCoefficient DragFunction MuzzleVelocity
          SightHeightOverBore) BoreAngle SightToBoreAngle) dt hw cw = some (r, dt1, p1) ∧
      p1.ProjectilePathCount = 1 ∧ p1.MuzzleVelocity = MuzzleVelocity ∧
      p1.DragCoefficient = DragCoefficient := by
  refine ⟨rfl, rfl, ?_⟩
  obtain ⟨r, dt1, p1, hU, hc, -⟩ :=
    Update_first m (Projectile.new junk DragCoefficient DragFunction MuzzleVelocity
      SightHeightOverBore) BoreAngle SightToBoreAngle dt hw cw
  obtain ⟨-, hbc, hmv, -⟩ := Update_config hU
  exact ⟨r, dt1, p1, hU, hc, hmv, hbc⟩

theorem invalid_configuration_runs_witness :
    ((2650 : ℚ) ≤ 0 ∨ (-0.465 : ℚ) ≤ 0) ∧
    ((Projectile.new Projectile.zero (-0.465 : ℚ) .G1 2650 1.6).MuzzleVelocity = 2650 ∧
      (Projectile.new Projectile.zero (-0.465 : ℚ) .G1 2650 1.6).DragCoefficient = -0.465 ∧
      ∃ r dt1 p1,
        Update ratOps (Initialize ratOps (Projectile.new Projectile.zero (-0.465) .G1 2650 1.6)
          0 0) 0 0 0 = some (r, dt1, p1) ∧
        p1.ProjectilePathCount = 1 ∧ p1.MuzzleVelocity = 2650 ∧
        p1.DragCoefficient = -0.465) :=
  ⟨Or.inr (by norm_num),
    invalid_configuration_runs ratOps Projectile.zero (-0.465) .G1 2650 1.6 0 0 0 0 0
      (Or.inr (by norm_num))⟩

/-! ### The jumps of the drag tables at their breakpoints -/

theorem rpow_le_of_pow_le (b d U : ℝ) (s t : ℕ) (hb : 1 ≤ b) (ht : 0 < t)
    (hd : d ≤ (s : ℝ) / t) (hU : 0 ≤ U) (h : b ^ s ≤ U ^ t) : b ^ d ≤ U := by
  have hb0 : (0 : ℝ) ≤ b := le_trans zero_le_one hb
  have ht0 : t ≠ 0 := Nat.pos_iff_ne_zero.mp ht
  calc b ^ d ≤ b ^ ((s : ℝ) / t) := Real.rpow_le_rpow_of_exponent_le hb hd
    _ = (b ^ s) ^ ((t : ℝ)⁻¹) := by
        rw [div_eq_mul_inv, Real.rpow_mul hb0, Real.rpow_natCast]
    _ ≤ (U ^ t) ^ ((t : ℝ)⁻¹) :=
        Real.rpow_le_rpow (pow_nonneg hb0 s) h (inv_nonneg.mpr (Nat.cast_nonneg t))
    _ = U := Real.pow_rpow_inv_natCast hU ht0

theorem le_rpow_of_pow_le (b d L : ℝ) (s t : ℕ) (hb : 1 ≤ b) (ht : 0 < t)
    (hd : (s : ℝ) / t ≤ d) (hL : 0 ≤ L) (h : L ^ t ≤ b ^ s) : L ≤ b ^ d := by
  have hb0 : (0 : ℝ) ≤ b := le_trans zero_le_one hb
  have ht0 : t ≠ 0 := Nat.pos_iff_ne_zero.mp ht
  calc L = (L ^ t) ^ ((t : ℝ)⁻¹) := (Real.pow_rpow_inv_natCast hL ht0).symm
    _ ≤ (b ^ s) ^ ((t : ℝ)⁻¹) :=
        Real.rpow_le_rpow (pow_nonneg hL t) h (inv_nonneg.mpr (Nat.cast_nonneg t))
    _ = b ^ ((s : ℝ) / t) := by
        rw [div_eq_mul_inv, Real.rpow_mul hb0, Real.rpow_natCast]
    _ ≤ b ^ d := Real.rpow_le_rpow_of_exponent_le hb hd

theorem JumpWithin_of_ratio (hi lo tol : ℝ) (hhi : 0 < hi) (hlo : 0 < lo) (htol : 0 ≤ tol)
    (h1 : hi ≤ (1 + tol) * lo) (h2 : lo ≤ (1 + tol) * hi) :
    |hi - lo| ≤ tol * hi ∧ |hi - lo| ≤ tol * lo := by
  have a1 : 0 ≤ tol * hi := mul_nonneg htol (le_of_lt hhi)
  have a2 : 0 ≤ tol * lo := mul_nonneg htol (le_of_lt hlo)
  rcases le_total hi lo with h | h
  · have hm : tol * hi ≤ tol * lo := mul_le_mul_of_nonneg_left h htol
    rw [abs_of_nonpos (by linarith)]
    constructor <;> linarith
  · have hm : tol * lo ≤ tol * hi := mul_le_mul_of_nonneg_left h htol
    rw [abs_of_nonneg (by linarith)]
    constructor <;> linarith

/-- The exponent does not grow downward across the breakpoint (`M1 ≥ M2`). -/
theorem JumpWithin_of_bounds_ge (b A1 M1 lb2 A2 M2 tol L U : ℝ) (s1 t1 s2 t2 : ℕ)
    (h : 1 ≤ b ∧ 0 < A1 ∧ 0 < A2 ∧ 0 ≤ tol ∧ 0 < t1 ∧ 0 < t2 ∧ 0 < L ∧ 0 ≤ U ∧
      (s1 : ℝ) / t1 ≤ M1 - M2 ∧ M1 - M2 ≤ (s2 : ℝ) / t2 ∧ L ^ t1 ≤ b ^ s1 ∧ b ^ s2 ≤ U ^ t2 ∧
      A1 * U ≤ (1 + tol) * A2 ∧ A2 ≤ (1 + tol) * (A1 * L)) :
    JumpWithin (fun x y : ℝ => x ^ y) tol (b, A1, M1) (lb2, A2, M2) := by
  obtain ⟨hb, hA1, hA2, htol, ht1, ht2, hL0, hU0, hr1, hr2, hL, hU, h1, h2⟩ := h
  have hb0 : (0 : ℝ) < b := lt_of_lt_of_le zero_lt_one hb
  have hlo := le_rpow_of_pow_le b (M1 - M2) L s1 t1 hb ht1 hr1 (le_of_lt hL0) hL
  have hup := rpow_le_of_pow_le b (M1 - M2) U s2 t2 hb ht2 hr2 hU0 hU
  have hP : 0 < b ^ M2 := Real.rpow_pos_of_pos hb0 M2
  have hsplit : b ^ M1 = b ^ (M1 - M2) * b ^ M2 := by
    rw [← Real.rpow_add hb0, sub_add_cancel]
  simp only [JumpWithin, segmentValue]
  rw [hsplit]
  have hR : 0 < b ^ (M1 - M2) := Real.rpow_pos_of_pos hb0 _
  apply JumpWithin_of_ratio _ _ tol (by positivity) (by positivity) htol
  · have : A1 * b ^ (M1 - M2) ≤ (1 + tol) * A2 :=
      le_trans (mul_le_mul_of_nonneg_left hup (le_of_lt hA1)) h1
    calc A1 * (b ^ (M1 - M2) * b ^ M2) = (A1 * b ^ (M1 - M2)) * b ^ M2 := by ring
      _ ≤ ((1 + tol) * A2) * b ^ M2 := mul_le_mul_of_nonneg_right this (le_of_lt hP)
      _ = (1 + tol) * (A2 * b ^ M2) := by ring
  · have h3 : (1 + tol) * (A1 * L) ≤ (1 + tol) * (A1 * b ^ (M1 - M2)) :=
      mul_le_mul_of_nonneg_left (mul_le_mul_of_nonneg_left hlo (le_of_lt hA1)) (by linarith)
    calc A2 * b ^ M2 ≤ ((1 + tol) * (A1 * b ^ (M1 - M2))) * b ^ M2 :=
          mul_le_mul_of_nonneg_right (le_trans h2 h3) (le_of_lt hP)
      _ = (1 + tol) * (A1 * (b ^ (M1 - M2) * b ^ M2)) := by ring

/-- The exponent grows downward across the breakpoint (`M2 ≥ M1`). -/
theorem JumpWithin_of_bounds_le (b A1 M1 lb2 A2 M2 tol L U : ℝ) (s1 t1 s2 t2 : ℕ)
    (h : 1 ≤ b ∧ 0 < A1 ∧ 0 < A2 ∧ 0 ≤ tol ∧ 0 < t1 ∧ 0 < t2 ∧ 0 < L ∧ 0 ≤ U ∧
      (s1 : ℝ) / t1 ≤ M2 - M1 ∧ M2 - M1 ≤ (s2 : ℝ) / t2 ∧ L ^ t1 ≤ b ^ s1 ∧ b ^ s2 ≤ U ^ t2 ∧
      A1 ≤ (1 + tol) * (A2 * L) ∧ A2 * U ≤ (1 + tol) * A1) :
    JumpWithin (fun x y : ℝ => x ^ y) tol (b, A1, M1) (lb2, A2, M2) := by
  obtain ⟨hb, hA1, hA2, htol, ht1, ht2, hL0, hU0, hr1, hr2, hL, hU, h1, h2⟩ := h
  have hb0 : (0 : ℝ) < b := lt_of_lt_of_le zero_lt_one hb
  have hlo := le_rpow_of_pow_le b (M2 - M1) L s1 t1 hb ht1 hr1 (le_of_lt hL0) hL
  have hup := rpow_le_of_pow_le b (M2 - M1) U s2 t2 hb ht2 hr2 hU0 hU
  have hP : 0 < b ^ M1 := Real.rpow_pos_of_pos hb0 M1
  have hsplit : b ^ M2 = b ^ (M2 - M1) * b ^ M1 := by
    rw [← Real.rpow_add hb0, sub_add_cancel]
  simp only [JumpWithin, segmentValue]
  rw [hsplit]
  have hR : 0 < b ^ (M2 - M1) := Real.rpow_pos_of_pos hb0 _
  apply JumpWithin_of_ratio _ _ tol (by positivity) (by positivity) htol
  · have h3 : (1 + tol) * (A2 * L) ≤ (1 + tol) * (A2 * b ^ (M2 - M1)) :=
      mul_le_mul_of_nonneg_left (mul_le_mul_of_nonneg_left hlo (le_of_lt hA2)) (by linarith)
    calc A1 * b ^ M1 ≤ ((1 + tol) * (A2 * b ^ (M2 - M1))) * b ^ M1 :=
          mul_le_mul_of_nonneg_right (le_trans h1 h3) (le_of_lt hP)
      _ = (1 + tol) * (A2 * (b ^ (M2 - M1) * b ^ M1)) := by ring
  · have : A2 * b ^ (M2 - M1) ≤ (1 + tol) * A1 :=
      le_trans (mul_le_mul_of_nonneg_left hup (le_of_lt hA2)) h2
    calc A2 * (b ^ (M2 - M1) * b ^ M1) = (A2 * b ^ (M2 - M1)) * b ^ M1 := by ring
      _ ≤ ((1 + tol) * A1) * b ^ M1 := mul_le_mul_of_nonneg_right this (le_of_lt hP)
      _ = (1 + tol) * (A1 * b ^ M1) := by ring

theorem DragTable_G1_jumps :
    List.Chain' (JumpWithin (fun x y : ℝ => x ^ y) 0.05) (DragTable ℝ .G1) := by
  simp only [DragTable, List.chain'_cons, List.chain'_singleton, and_true]
  refine ⟨?_, ?_, ?_, ?_, ?_, ?_, ?_, ?_, ?_, ?_, ?_, ?_, ?_, ?_, ?_, ?_, ?_, ?_, ?_, ?_, ?_, ?_, ?_, ?_, ?_, ?_, ?_, ?_, ?_, ?_, ?_, ?_, ?_, ?_, ?_, ?_, ?_, ?_, ?_, ?_⟩
  · exact JumpWithin_of_bounds_ge _ _ _ _ _ _ _ (5 / 4) (27 / 20) 1 32 1 28
      (by norm_num)
  · exact JumpWithin_of_bounds_ge _ _ _ _ _ _ _ (3 / 2) (39 / 25) 1 20 1 19
      (by norm_num)
  · exact JumpWithin_of_bounds_ge _ _ _ _ _ _ _ (3 / 2) (39 / 25) 1 20 1 19
      (by norm_num)
  · exact JumpWithin_of_bounds_ge _ _ _ _ _ _ _ (29 / 20) (3 / 2) 1 20 1 20
      (by norm_num)
  · exact JumpWithin_of_bounds_ge _ _ _ _ _ _ _ (73 / 50) (3 / 2) 1 20 1 20
      (by norm_num)
  · exact JumpWithin_of_bounds_ge _ _ _ _ _ _ _ (73 / 50) (3 / 2) 1 20 1 20
      (by norm_num)
  · exact JumpWithin_of_bounds_ge _ _ _ _ _ _ _ (73 / 50) (3 / 2) 1 20 1 20
      (by norm_num)
  · exact JumpWithin_of_bounds_ge _ _ _ _ _ _ _ (29 / 20) (3 / 2) 1 20 1 20
      (by norm_num)
  · exact JumpWithin_of_bounds_ge _ _ _ _ _ _ _ (6 / 5) (63 / 50) 1 40 1 34
      (by norm_num)
  · exact JumpWithin_of_bounds_le _ _ _ _ _ _ _ (6 / 5) (5 / 4) 1 40 1 35
      (by norm_num)
  · exact JumpWithin_of_bounds_le _ _ _ _ _ _ _ (7 / 5) (3 / 2) 1 20 1 19
      (by norm_num)
  · exact JumpWithin_of_bounds_le _ _ _ _ _ _ _ (7 / 5) (3 / 2) 1 20 1 19
      (by norm_num)
  · exact JumpWithin_of_bounds_le _ _ _ _ _ _ _ (17 / 10) (9 / 5) 1 14 1 13
      (by norm_num)
  · exact JumpWithin_of_bounds_le _ _ _ _ _ _ _ (21 / 10) (11 / 5) 1 10 1 10
      (by norm_num)
  · exact JumpWithin_of_bounds_le _ _ _ _ _ _ _ 2 (21 / 10) 1 10 1 10
      (by norm_num)
  · exact JumpWithin_of_bounds_le _ _ _ _ _ _ _ (7 / 2) (37 / 10) 4 23 3 17
      (by norm_num)
  · exact JumpWithin_of_bounds_le _ _ _ _ _ _ _ 6 (31 / 5) 1 4 1 4
      (by norm_num)
  · exact JumpWithin_of_bounds_le _ _ _ _ _ _ _ 6 (31 / 5) 1 4 1 4
      (by norm_num)
  · exact JumpWithin_of_bounds_le _ _ _ _ _ _ _ (29 / 5) (31 / 5) 1 4 1 4
      (by norm_num)
  · exact JumpWithin_of_bounds_le _ _ _ _ _ _ _ 14 15 3 8 3 8
      (by norm_num)
  · exact JumpWithin_of_bounds_le _ _ _ _ _ _ _ 34 35 1 2 1 2
      (by norm_num)
  · exact JumpWithin_of_bounds_le _ _ _ _ _ _ _ 34 35 1 2 1 2
      (by norm_num)
  · exact JumpWithin_of_bounds_le _ _ _ _ _ _ _ 33 34 1 2 1 2
      (by norm_num)
  · exact JumpWithin_of_bounds_le _ _ _ _ _ _ _ (68 / 5) 14 3 8 3 8
      (by norm_num)
  · exact JumpWithin_of_bounds_le _ _ _ _ _ _ _ (23 / 10) (5 / 2) 1 8 1 8
      (by norm_num)
  · exact JumpWithin_of_bounds_ge _ _ _ _ _ _ _ (23 / 10) (12 / 5) 1 8 1 8
      (by norm_num)
  · exact JumpWithin_of_bounds_ge _ _ _ _ _ _ _ 13 (27 / 2) 3 8 3 8
      (by norm_num)
  · exact JumpWithin_of_bounds_ge _ _ _ _ _ _ _ 30 31 1 2 1 2
      (by norm_num)
  · exact JumpWithin_of_bounds_ge _ _ _ _ _ _ _ 30 31 1 2 1 2
      (by norm_num)
  · exact JumpWithin_of_bounds_ge _ _ _ _ _ _ _ 29 30 1 2 1 2
      (by norm_num)
  · exact JumpWithin_of_bounds_ge _ _ _ _ _ _ _ 12 (63 / 5) 3 8 3 8
      (by norm_num)
  · exact JumpWithin_of_bounds_ge _ _ _ _ _ _ _ (26 / 5) (27 / 5) 1 4 1 4
      (by norm_num)
  · exact JumpWithin_of_bounds_ge _ _ _ _ _ _ _ 5 (27 / 5) 1 4 1 4
      (by norm_num)
  · exact JumpWithin_of_bounds_ge _ _ _ _ _ _ _ 5 (26 / 5) 1 4 1 4
      (by norm_num)
  · exact JumpWithin_of_bounds_ge _ _ _ _ _ _ _ 3 (13 / 4) 4 23 2 11
      (by norm_num)
  · exact JumpWithin_of_bounds_ge _ _ _ _ _ _ _ (8 / 5) (33 / 20) 2 27 1 13
      (by norm_num)
  · exact JumpWithin_of_bounds_ge _ _ _ _ _ _ _ 1 1 0 1 0 1
      (by norm_num)
  · exact JumpWithin_of_bounds_le _ _ _ _ _ _ _ (5 / 4) (67 / 50) 1 20 1 19
      (by norm_num)
  · exact JumpWithin_of_bounds_le _ _ _ _ _ _ _ (6 / 5) (13 / 10) 1 20 1 18
      (by norm_num)
  · exact JumpWithin_of_bounds_le _ _ _ _ _ _ _ (11 / 10) (29 / 25) 1 40 1 29
      (by norm_num)

theorem DragTable_G2_jumps :
    List.Chain' (JumpWithin (fun x y : ℝ => x ^ y) 0.56) (DragTable ℝ .G2) := by
  simp only [DragTable, List.chain'_cons, List.chain'_singleton, and_true]
  refine ⟨?_, ?_, ?_, ?_, ?_, ?_⟩
  · exact JumpWithin_of_bounds_le _ _ _ _ _ _ _ (28 / 5) 12 1 4 1 3
      (by norm_num)
  · exact JumpWithin_of_bounds_le _ _ _ _ _ _ _ 9300000000000000000 20000000000000000000 25 4 44 7
      (by norm_num)
  · exact JumpWithin_of_bounds_ge _ _ _ _ _ _ _ 1900000000000 3020000000000 41 10 33 8
      (by norm_num)
  · exact JumpWithin_of_bounds_ge _ _ _ _ _ _ _ 1400000 2400000 23 11 15 7
      (by norm_num)
  · exact JumpWithin_of_bounds_le _ _ _ _ _ _ _ (47 / 50) 2 0 1 1 10
      (by norm_num)
  · exact JumpWithin_of_bounds_le _ _ _ _ _ _ _ (5 / 2) (26 / 5) 1 5 1 4
      (by norm_num)

theorem DragTable_G5_jumps :
    List.Chain' (JumpWithin (fun x y : ℝ => x ^ y) 0.56) (DragTable ℝ .G5) := by
  simp only [DragTable, List.chain'_cons, List.chain'_singleton, and_true]
  refine ⟨?_, ?_, ?_, ?_, ?_, ?_⟩
  · exact JumpWithin_of_bounds_le _ _ _ _ _ _ _ 140 290 2 3 3 4
      (by norm_num)
  · exact JumpWithin_of_bounds_le _ _ _ _ _ _ _ 160000000 270000000 8 3 19 7
      (by norm_num)
  · exact JumpWithin_of_bounds_le _ _ _ _ _ _ _ 894000000 1600000000 47 16 3 1
      (by norm_num)
  · exact JumpWithin_of_bounds_ge _ _ _ _ _ _ _ 510000000000000 1100000000000000 49 10 5 1
      (by norm_num)
  · exact JumpWithin_of_bounds_ge _ _ _ _ _ _ _ 740 1600 1 1 12 11
      (by norm_num)
  · exact JumpWithin_of_bounds_le _ _ _ _ _ _ _ (5 / 2) (22 / 5) 1 6 1 4
      (by norm_num)

theorem DragTable_G6_jumps :
    List.Chain' (JumpWithin (fun x y : ℝ => x ^ y) 0.56) (DragTable ℝ .G6) := by
  simp only [DragTable, List.chain'_cons, List.chain'_singleton, and_true]
  refine ⟨?_, ?_, ?_, ?_, ?_, ?_⟩
  · exact JumpWithin_of_bounds_ge _ _ _ _ _ _ _ (5 / 4) (11 / 5) 1 19 1 11
      (by norm_num)
  · exact JumpWithin_of_bounds_le _ _ _ _ _ _ _ 29 53 4 9 1 2
      (by norm_num)
  · exact JumpWithin_of_bounds_le _ _ _ _ _ _ _ 14000 25000 4 3 7 5
      (by norm_num)
  · exact JumpWithin_of_bounds_le _ _ _ _ _ _ _ 15400000000 28000000000 10 3 17 5
      (by norm_num)
  · exact JumpWithin_of_bounds_ge _ _ _ _ _ _ _ 3900000000000 5900000000000 21 5 17 4
      (by norm_num)
  · exact JumpWithin_of_bounds_ge _ _ _ _ _ _ _ (5 / 2) (9 / 2) 1 6 1 5
      (by norm_num)

theorem DragTable_G7_jumps :
    List.Chain' (JumpWithin (fun x y : ℝ => x ^ y) 0.56) (DragTable ℝ .G7) := by
  simp only [DragTable, List.chain'_cons, List.chain'_singleton, and_true]
  refine ⟨?_, ?_, ?_, ?_, ?_, ?_, ?_, ?_⟩
  · exact JumpWithin_of_bounds_ge _ _ _ _ _ _ _ 8700000 18000000 23 12 2 1
      (by norm_num)
  · exact JumpWithin_of_bounds_le _ _ _ _ _ _ _ (49 / 10) 10 1 5 1 4
      (by norm_num)
  · exact JumpWithin_of_bounds_le _ _ _ _ _ _ _ 2 (22 / 5) 1 7 1 5
      (by norm_num)
  · exact JumpWithin_of_bounds_le _ _ _ _ _ _ _ 93000000 200000000 13 5 8 3
      (by norm_num)
  · exact JumpWithin_of_bounds_le _ _ _ _ _ _ _ 121000 240000 202 121 7 4
      (by norm_num)
  · exact JumpWithin_of_bounds_ge _ _ _ _ _ _ _ 200000000000 300000000000 19 5 23 6
      (by norm_num)
  · exact JumpWithin_of_bounds_ge _ _ _ _ _ _ _ (3 / 2) (13 / 5) 1 12 1 7
      (by norm_num)
  · exact JumpWithin_of_bounds_ge _ _ _ _ _ _ _ (41 / 50) (3 / 2) 0 1 1 16
      (by norm_num)

theorem DragTable_G8_jumps :
    List.Chain' (JumpWithin (fun x y : ℝ => x ^ y) 0.56) (DragTable ℝ .G8) := by
  simp only [DragTable, List.chain'_cons, List.chain'_singleton, and_true]
  refine ⟨?_, ?_, ?_, ?_, ?_⟩
  · exact JumpWithin_of_bounds_ge _ _ _ _ _ _ _ (49 / 50) (9 / 5) 0 1 1 14
      (by norm_num)
  · exact JumpWithin_of_bounds_le _ _ _ _ _ _ _ 5 (47 / 5) 1 4 2 7
      (by norm_num)
  · exact JumpWithin_of_bounds_le _ _ _ _ _ _ _ 7300000000000 12000000000000 38 9 17 4
      (by norm_num)
  · exact JumpWithin_of_bounds_ge _ _ _ _ _ _ _ 27000 44600 3 2 26 17
      (by norm_num)
  · exact JumpWithin_of_bounds_ge _ _ _ _ _ _ _ 5200000 10000000 9 4 7 3
      (by norm_num)

theorem G7_values_at_1110 :
    segmentValue (fun x y : ℝ => x ^ y) (1110, 5.71086414289273e-12, 4.3212826264889) 1110
      > 1.5 * segmentValue (fun x y : ℝ => x ^ y)
          (960, 3.02865108244904e-17, 5.99074203776707) 1110 := by
  have hup := rpow_le_of_pow_le 1110 (5.99074203776707 - 4.3212826264889) 125300 77 46
    (by norm_num) (by norm_num) (by norm_num) (by norm_num) (by norm_num)
  have hb0 : (0 : ℝ) < 1110 := by norm_num
  have hP : (0 : ℝ) < (1110 : ℝ) ^ (4.3212826264889 : ℝ) := Real.rpow_pos_of_pos hb0 _
  have hsplit : (1110 : ℝ) ^ (5.99074203776707 : ℝ)
      = (1110 : ℝ) ^ ((5.99074203776707 : ℝ) - 4.3212826264889)
        * (1110 : ℝ) ^ (4.3212826264889 : ℝ) := by
    rw [← Real.rpow_add hb0, sub_add_cancel]
  have hA : 1.5 * ((3.02865108244904e-17 : ℝ)
      * (1110 : ℝ) ^ ((5.99074203776707 : ℝ) - 4.3212826264889)) < 5.71086414289273e-12 := by
    have h1 : (3.02865108244904e-17 : ℝ)
        * (1110 : ℝ) ^ ((5.99074203776707 : ℝ) - 4.3212826264889)
        ≤ 3.02865108244904e-17 * 125300 :=
      mul_le_mul_of_nonneg_left hup (by norm_num)
    have h2 : (1.5 : ℝ) * (3.02865108244904e-17 * 125300) < 5.71086414289273e-12 := by
      norm_num
    linarith
  simp only [segmentValue]
  rw [hsplit]
  have := mul_lt_mul_of_pos_right hA hP
  linarith

/-- C20, as stated, fails: at the breakpoint 1110 ft/s of the `G7` table the segment above
gives more than 1.5 times the value of the segment below, so the adjacent values of `G7` are
not all within 5% of each other. -/
theorem DragTable_G7_jump_exceeds :
    segmentValue (fun x y : ℝ => x ^ y) (1110, 5.71086414289273e-12, 4.3212826264889) 1110
      > 1.5 * segmentValue (fun x y : ℝ => x ^ y)
          (960, 3.02865108244904e-17, 5.99074203776707) 1110 ∧
    ¬ List.Chain' (JumpWithin (fun x y : ℝ => x ^ y) 0.05) (DragTable ℝ .G7) := by
  refine ⟨G7_values_at_1110, fun hc => ?_⟩
  simp only [DragTable, List.chain'_cons, List.chain'_singleton, and_true] at hc
  obtain ⟨-, -, -, -, ⟨-, h5⟩, -⟩ := hc
  have hv := G7_values_at_1110
  have hlo : 0 < segmentValue (fun x y : ℝ => x ^ y)
      (960, 3.02865108244904e-17, 5.99074203776707) 1110 := by
    simp only [segmentValue]
    exact mul_pos (by norm_num) (Real.rpow_pos_of_pos (by norm_num) _)
  have h6 := le_trans (le_abs_self _) h5
  simp only at h6
  linarith

/-- C20, amended: at every interior breakpoint of the `G1` table the values `A * b^M` of the
two adjacent segments differ by no more than 5% of either value; at every interior
breakpoint of the tables of `G2`, `G5`, `G6`, `G7` and `G8` they differ by no more than 56%
of either value. -/
theorem DragTable_jumps (df : EDragFunction) :
    List.Chain' (JumpWithin (fun x y : ℝ => x ^ y) (if df = .G1 then 0.05 else 0.56))
      (DragTable ℝ df) := by
  cases df
  · exact DragTable_G1_jumps
  · exact DragTable_G2_jumps
  · simp [DragTable]
  · simp [DragTable]
  · exact DragTable_G5_jumps
  · exact DragTable_G6_jumps
  · exact DragTable_G7_jumps
  · exact DragTable_G8_jumps

/-! ### The step of the zero search -/

theorem da_after_ifs (y yI da : α) :
    (if y < yI ∧ (if y > yI ∧ da > 0 then -da / 2 else da) < 0
        then -(if y > yI ∧ da > 0 then -da / 2 else da) / 2
        else (if y > yI ∧ da > 0 then -da / 2 else da)) = da ∨
    (if y < yI ∧ (if y > yI ∧ da > 0 then -da / 2 else da) < 0
        then -(if y > yI ∧ da > 0 then -da / 2 else da) / 2
        else (if y > yI ∧ da > 0 then -da / 2 else da)) = -da / 2 := by
  by_cases h1 : y > yI ∧ da > 0
  · have h2 : ¬ (y < yI ∧ -da / 2 < 0) := fun h => absurd h.1 (not_lt.mpr (le_of_lt h1.1))
    rw [if_pos h1, if_neg h2]
    exact Or.inr rfl
  · rw [if_neg h1]
    by_cases h2 : y < yI ∧ da < 0
    · rw [if_pos h2]; exact Or.inr rfl
    · rw [if_neg h2]; exact Or.inl rfl

theorem threshold_below : (DegtoRad 14 : α) / 2 ^ 17 < MOAtoRad 0.01 := by
  simp only [DegtoRad, MOAtoRad]; norm_num

theorem threshold_above : (MOAtoRad 0.01 : α) < DegtoRad 14 / 2 ^ 16 := by
  simp only [DegtoRad, MOAtoRad]; norm_num

theorem not_below_threshold (k : Nat) (hk : k ≤ 16) :
    ¬ ((DegtoRad 14 : α) / 2 ^ k < MOAtoRad 0.01) := by
  have h2 : (2 : α) ^ k ≤ 2 ^ 16 := pow_le_pow_right₀ (by norm_num) hk
  have hpos : (0 : α) < 2 ^ k := by positivity
  have h1 : (DegtoRad 14 : α) / 2 ^ 16 ≤ DegtoRad 14 / 2 ^ k :=
    div_le_div_of_nonneg_left (le_of_lt DegtoRad_14_pos) hpos h2
  exact not_lt.mpr (le_trans (le_of_lt threshold_above) h1)

theorem step_magnitude (da d : α) (k : Nat) (hda : |da| = DegtoRad 14 / 2 ^ k)
    (hd : d = da ∨ d = -da / 2) :
    |d| = DegtoRad 14 / 2 ^ (k + (if d = da then 0 else 1)) ∧ |d| ≠ 0 := by
  have hpos : (0 : α) < DegtoRad 14 / 2 ^ k := div_pos DegtoRad_14_pos (by positivity)
  have hda0 : da ≠ 0 := by
    intro h0
    rw [h0, abs_zero] at hda
    linarith
  rcases hd with h | h
  · rw [h, if_pos rfl, Nat.add_zero, hda]
    exact ⟨rfl, ne_of_gt hpos⟩
  · have hne : d ≠ da := by
      intro he
      rw [he] at h
      apply hda0
      linarith
    rw [if_neg hne, h]
    have : |-da / 2| = |da| / 2 := by
      rw [abs_div, abs_neg, abs_of_pos (by norm_num : (0 : α) < 2)]
    rw [this, hda, pow_succ]
    constructor
    · rw [div_div]
    · apply ne_of_gt
      positivity


theorem search_steps_inv (m : MathOps α) (p : Projectile α) (Z yI : α) (innerFuel : Nat) :
    ∀ (fuel : Nat) (angle da : α) (k : Nat), |da| = DegtoRad 14 / 2 ^ k → k ≤ 16 →
      List.Chain (fun a b : α => b = a ∨ b = -a / 2) da
          (CalculateSightToBoreAngle.steps m p Z yI innerFuel fuel angle da) ∧
        k + reversals da (CalculateSightToBoreAngle.steps m p Z yI innerFuel fuel angle da)
          ≤ 17 ∧
        ((∃ a', CalculateSightToBoreAngle.search m p Z yI innerFuel fuel angle da
            = some (a', .converged)) ↔
          k + reversals da (CalculateSightToBoreAngle.steps m p Z yI innerFuel fuel angle da)
            = 17) ∧
        (∀ n : Nat,
          n + 1 < (CalculateSightToBoreAngle.steps m p Z yI innerFuel fuel angle da).length →
          k + reversals da
            ((CalculateSightToBoreAngle.steps m p Z yI innerFuel fuel angle da).take (n + 1))
            ≤ 16) := by
  intro fuel
  induction fuel with
  | zero =>
    intro angle da k _ hk
    simp only [CalculateSightToBoreAngle.steps, CalculateSightToBoreAngle.search, reversals]
    exact ⟨List.Chain.nil, by omega, by constructor <;> intro h <;> [simp at h; omega],
      fun n hn => absurd hn (by simp)⟩
  | succ fuel ih =>
    intro angle da k hda hk
    simp only [CalculateSightToBoreAngle.steps, CalculateSightToBoreAngle.search]
    cases hF : CalculateSightToBoreAngle.flight m p Z yI (GRAVITY * m.sin angle)
        (GRAVITY * m.cos angle) innerFuel (p.MuzzleVelocity * m.cos angle)
        (p.MuzzleVelocity * m.sin angle) 0 (0 - p.SightHeightOverBore / 12) with
    | none =>
      simp only [reversals]
      exact ⟨List.Chain.nil, by omega, by constructor <;> intro h <;> [simp at h; omega],
        fun n hn => absurd hn (by simp)⟩
    | some y =>
      simp only
      have hcase := da_after_ifs y yI da
      generalize hd : (if y < yI ∧ (if y > yI ∧ da > 0 then -da / 2 else da) < 0
        then -(if y > yI ∧ da > 0 then -da / 2 else da) / 2
        else (if y > yI ∧ da > 0 then -da / 2 else da)) = d at hcase ⊢
      obtain ⟨hmag, -⟩ := step_magnitude da d k hda hcase
      have hk2 : k + (if d = da then 0 else 1) ≤ 17 := by split_ifs <;> omega
      by_cases hconv : |d| < MOAtoRad 0.01
      · have h17 : k + (if d = da then 0 else 1) = 17 := by
          by_contra hne
          have hle : k + (if d = da then 0 else 1) ≤ 16 := by omega
          exact not_below_threshold _ hle (by rw [← hmag]; exact hconv)
        simp only [if_pos hconv, reversals, Nat.add_zero]
        exact ⟨List.Chain.cons hcase List.Chain.nil, le_of_eq h17,
          ⟨fun _ => h17, fun _ => ⟨angle, rfl⟩⟩, fun n hn => absurd hn (by simp)⟩
      · have h16 : k + (if d = da then 0 else 1) ≤ 16 := by
          by_contra hne
          have h17 : k + (if d = da then 0 else 1) = 17 := by omega
          apply hconv
          rw [hmag, h17]
          exact threshold_below
        simp only [if_neg hconv]
        by_cases hcap : angle > DegtoRad 45
        · simp only [if_pos hcap, reversals, Nat.add_zero]
          refine ⟨List.Chain.cons hcase List.Chain.nil, by omega, ?_,
            fun n hn => absurd hn (by simp)⟩
          constructor
          · rintro ⟨a', h⟩
            simp at h
          · intro h
            omega
        · simp only [if_neg hcap, reversals]
          obtain ⟨hc, hle, hiff, hpre⟩ := ih (angle + d) d _ hmag h16
          refine ⟨List.Chain.cons hcase hc, by omega, ?_, ?_⟩
          · rw [hiff]
            constructor <;> intro h <;> omega
          · intro n hn
            cases n with
            | zero =>
              simp only [Nat.zero_add, List.take_succ_cons, List.take_zero, reversals]
              omega
            | succ n =>
              have := hpre n (by simpa using hn)
              omega


theorem chain_magnitude (D : α) :
    ∀ (T : List α) (a : α) (k : Nat), |a| = DegtoRad 14 / 2 ^ k → D = DegtoRad 14 →
      List.Chain (fun a b : α => b = a ∨ b = -a / 2) a T →
      ∀ (n : Nat) (h : n < T.length),
        |T.get ⟨n, h⟩| = D / 2 ^ (k + reversals a (T.take (n + 1))) := by
  intro T
  induction T with
  | nil =>
    intro a k _ _ _ n h
    exact absurd h (by simp)
  | cons b l ih =>
    intro a k ha hD hc n h
    rw [List.chain_cons] at hc
    obtain ⟨hb, -⟩ := step_magnitude a b k ha hc.1
    cases n with
    | zero =>
      simp only [List.get_eq_getElem, List.getElem_cons_zero, Nat.zero_add,
        List.take_succ_cons, List.take_zero, reversals, Nat.add_zero]
      rw [hD]
      exact hb
    | succ n =>
      have h2 : n < l.length := by simpa using h
      have := ih b _ hb hD hc.2 n h2
      simp only [List.get_eq_getElem, List.getElem_cons_succ, List.take_succ_cons, reversals]
      simp only [List.get_eq_getElem] at this
      rw [this, Nat.add_assoc]

/-- C21: the step `da` of the zero search starts at `DegtoRad(14)`; each iteration of the
outer loop leaves it unchanged or replaces it by `-da / 2`, once; after `k` such reversals
its magnitude is `DegtoRad(14) / 2^k`; `k` stays at most 16 while the loop continues, and
the search exits as converged exactly when `k` reaches 17, since `DegtoRad(14) / 2^17` is
below and `DegtoRad(14) / 2^16` above the threshold `MOAtoRad(0.01)`. -/
theorem zero_search_step_halving (m : MathOps α) (p : Projectile α) (Z yI : α)
    (innerFuel fuel : Nat) :
    List.Chain (fun a b : α => b = a ∨ b = -a / 2) (DegtoRad 14)
        (CalculateSightToBoreAngle.steps m p Z yI innerFuel fuel 0 (DegtoRad 14)) ∧
      (∀ (n : Nat)
        (h : n < (CalculateSightToBoreAngle.steps m p Z yI innerFuel fuel 0
          (DegtoRad 14)).length),
        |(CalculateSightToBoreAngle.steps m p Z yI innerFuel fuel 0 (DegtoRad 14)).get ⟨n, h⟩|
          = DegtoRad 14 / 2 ^ reversals (DegtoRad 14)
            ((CalculateSightToBoreAngle.steps m p Z yI innerFuel fuel 0 (DegtoRad 14)).take
              (n + 1))) ∧
      (∀ n : Nat,
        n + 1 < (CalculateSightToBoreAngle.steps m p Z yI innerFuel fuel 0
          (DegtoRad 14)).length →
        reversals (DegtoRad 14)
          ((CalculateSightToBoreAngle.steps m p Z yI innerFuel fuel 0 (DegtoRad 14)).take
            (n + 1)) ≤ 16) ∧
      reversals (DegtoRad 14)
        (CalculateSightToBoreAngle.steps m p Z yI innerFuel fuel 0 (DegtoRad 14)) ≤ 17 ∧
      ((∃ angle, CalculateSightToBoreAngle.search m p Z yI innerFuel fuel 0 (DegtoRad 14)
          = some (angle, .converged)) ↔
        reversals (DegtoRad 14)
          (CalculateSightToBoreAngle.steps m p Z yI innerFuel fuel 0 (DegtoRad 14)) = 17) ∧
      (DegtoRad 14 : α) / 2 ^ 17 < MOAtoRad 0.01 ∧
      (MOAtoRad 0.01 : α) < DegtoRad 14 / 2 ^ 16 := by
  have h0 : |(DegtoRad 14 : α)| = DegtoRad 14 / 2 ^ 0 := by
    rw [abs_of_pos DegtoRad_14_pos, pow_zero, div_one]
  obtain ⟨hc, hle, hiff, hpre⟩ :=
    search_steps_inv m p Z yI innerFuel fuel 0 (DegtoRad 14) 0 h0 (by omega)
  refine ⟨hc, ?_, ?_, by omega, ?_, threshold_below, threshold_above⟩
  · intro n h
    have := chain_magnitude (DegtoRad 14) _ (DegtoRad 14) 0 h0 rfl hc n h
    rw [this, Nat.zero_add]
  · intro n hn
    have := hpre n hn
    omega
  · rw [hiff, Nat.zero_add]

/-! ### The velocity members of a sample -/

theorem Update_sample_velocity {m : MathOps α} {p : Projectile α} {dt hw cw : α} {r : Int}
    {dt1 : α} {p1 : Projectile α} (h : Update m p dt hw cw = some (r, dt1, p1))
    (hrec : p1.ProjectilePathCount = p.ProjectilePathCount + 1) :
    (p1.aProjectilePath p.ProjectilePathCount.toNat).Velocity
        = m.sqrt (p.vx * p.vx + p.vy * p.vy) ∧
      (p1.aProjectilePath p.ProjectilePathCount.toNat).Vx = p1.vx ∧
      (p1.aProjectilePath p.ProjectilePathCount.toNat).Vy = p1.vy := by
  by_cases hx : p.x / 3 ≥ (p.ProjectilePathCount : α)
  · by_cases hn : 0 ≤ p.ProjectilePathCount ∧ p.ProjectilePathCount < BCOMP_MAXRANGE
    · simp only [Update, if_pos hx, if_pos hn] at h
      split_ifs at h <;>
        simp only [Option.some.injEq, Prod.mk.injEq] at h <;>
        obtain ⟨-, -, rfl⟩ := h <;>
        simp only [Function.update_same, and_self]
    · simp only [Update, if_pos hx, if_neg hn] at h
      exact absurd h (by simp)
  · simp only [Update, if_neg hx] at h
    split_ifs at h <;>
      simp only [Option.some.injEq, Prod.mk.injEq] at h <;>
      obtain ⟨-, -, rfl⟩ := h <;>
      exact absurd hrec (by simp)

theorem Update_velocity_mismatch (m : MathOps α) (junk : Projectile α)
    (hsin : m.sin 0 = 0) (hcos : m.cos 0 = 1)
    (hsqrt : m.sqrt (2650 * 2650 + 0 * 0) = 2650)
    (hpow0 : 2650 ≤ m.pow 2650 1.575) (hpow1 : m.pow 2650 1.575 ≤ 2650 * 2650) :
    ∃ r dt1 p1,
      Update m (Initialize m (Projectile.new junk 0.465 .G1 2650 1.6) 0 0) (1 / 100) 0 0
        = some (r, dt1, p1) ∧
      p1.ProjectilePathCount = 1 ∧
      (p1.aProjectilePath 0).Velocity = 2650 ∧
      (p1.aProjectilePath 0).Vx ^ 2 + (p1.aProjectilePath 0).Vy ^ 2
        < (p1.aProjectilePath 0).Velocity ^ 2 := by
  obtain ⟨q, hq⟩ : ∃ q : Projectile α,
      q = Initialize m (Projectile.new junk 0.465 .G1 2650 1.6) 0 0 := ⟨_, rfl⟩
  have hvx : q.vx = 2650 := by
    rw [hq]; simp [Initialize, Projectile.new, DegtoRad, hcos]
  have hvy : q.vy = 0 := by
    rw [hq]; simp [Initialize, Projectile.new, DegtoRad, hsin]
  have hGx : q.Gx = 0 := by
    rw [hq]; simp [Initialize, Projectile.new, DegtoRad, hsin]
  have hGy : q.Gy = GRAVITY := by
    rw [hq]; simp [Initialize, Projectile.new, DegtoRad, hcos]
  have hqc : q.ProjectilePathCount = 0 := by rw [hq]; rfl
  have hdf : q.DragFunction = .G1 := by rw [hq]; rfl
  have hbc : q.DragCoefficient = 0.465 := by rw [hq]; rfl
  obtain ⟨r, dt1, p1, hU, hc, -⟩ :=
    Update_first m (Projectile.new junk 0.465 .G1 2650 1.6) 0 0 (1 / 100) 0 0
  rw [← hq] at hU
  obtain ⟨hk1, hk2, -⟩ := Update_kinematics hU
  obtain ⟨hV, hVx, hVy⟩ := Update_sample_velocity hU (by rw [hc, hqc]; rfl)
  rw [hqc, Int.toNat_zero] at hV hVx hVy
  have harg : m.sqrt (q.vx * q.vx + q.vy * q.vy) + 0 * 5280.0 / 3600.0 = 2650 := by
    rw [hvx, hvy, hsqrt]; norm_num
  rw [harg, DragRetardationVelocity_G1_2650 m q hdf, hvx, hvy, hsqrt, hGx, hbc] at hk1
  rw [harg, DragRetardationVelocity_G1_2650 m q hdf, hvx, hvy, hsqrt, hGy, hbc] at hk2
  rw [hvx, hvy, hsqrt] at hV
  refine ⟨r, dt1, p1, by rw [← hq]; exact hU, hc, hV, ?_⟩
  rw [hV, hVx, hVy, hk1, hk2]
  simp only [GRAVITY]
  have hd0 : (18 : α) ≤ 3.209559783129881e-03 * m.pow 2650 1.575 / 0.465 := by
    rw [le_div_iff₀ (by norm_num)]
    linarith
  have hd1 : 3.209559783129881e-03 * m.pow 2650 1.575 / (0.465 : α) ≤ 50000 := by
    rw [div_le_iff₀ (by norm_num)]
    linarith
  have hself : (2650 : α) / 2650 = 1 := by norm_num
  rw [hself]
  have hlo : (0 : α) ≤ 2650 + (1 / 100 *
      (-1 * (3.209559783129881e-03 * m.pow 2650 1.575 / 0.465)) + 1 / 100 * 0) := by
    linarith
  have hhi : 2650 + (1 / 100 *
      (-1 * (3.209559783129881e-03 * m.pow 2650 1.575 / 0.465)) + 1 / 100 * 0)
      ≤ (2649.82 : α) := by
    linarith
  have hsq := pow_le_pow_left₀ hlo hhi 2
  have hy : (0 + (1 / 100 * (-(0 / 2650) *
      (3.209559783129881e-03 * m.pow 2650 1.575 / 0.465)) + 1 / 100 * -32.194) : α) ^ 2
      = (0.32194 : α) ^ 2 := by
    norm_num
  rw [hy]
  norm_num at hsq ⊢
  linarith

/-- C22 (the code deviates from it): on the projectile of `main` after `Initialize(0, 0)`,
a call of `Update` with `dt = 1/100` records sample 0 with `Velocity = 2650`, the speed
before the velocity update of the step, and with `Vx`, `Vy` the components after it, so
that `Vx^2 + Vy^2` is smaller than `Velocity^2`. -/
theorem sample_Velocity_not_of_Vx_Vy :
    ∃ r dt1 p1,
      Update ratOps (Initialize ratOps mainProjectile 0 0) (1 / 100) 0 0 = some (r, dt1, p1) ∧
      p1.ProjectilePathCount = 1 ∧
      (p1.aProjectilePath 0).Velocity = 2650 ∧
      (p1.aProjectilePath 0).Vx ^ 2 + (p1.aProjectilePath 0).Vy ^ 2
        < (p1.aProjectilePath 0).Velocity ^ 2 :=
  Update_velocity_mismatch ratOps Projectile.zero (by simp [ratOps]) (by simp [ratOps])
    ratOps_sqrt_2650 (by simp only [ratOps]; norm_num) (by simp only [ratOps]; norm_num)

/-! ### The sentinel and the crosswind -/

/-- C23: for a positive ballistic coefficient and a power function that is positive on
positive bases, `DragRetardationVelocity` returns a strictly positive value for every
variant with a table and every `0 < speed < 10000`; hence it returns `-1` exactly when the
lookup failed (speed outside `(0, 10000)`, or variant `G3` or `G4`). -/
theorem DragRetardationVelocity_sentinel (m : MathOps α) (p : Projectile α) (speed : α)
    (hbc : 0 < p.DragCoefficient) (hpow : ∀ x y : α, 0 < x → 0 < m.pow x y) :
    (p.DragFunction ≠ .G3 → p.DragFunction ≠ .G4 → 0 < speed → speed < 10000 →
      0 < DragRetardationVelocity m p speed) ∧
    (DragRetardationVelocity m p speed = -1 ↔
      (speed ≤ 0 ∨ 10000 ≤ speed ∨ p.DragFunction = .G3 ∨ p.DragFunction = .G4)) := by
  have hpos : p.DragFunction ≠ .G3 → p.DragFunction ≠ .G4 → 0 < speed → speed < 10000 →
      0 < DragRetardationVelocity m p speed := by
    intro h3 h4 h0 h1
    obtain ⟨e, he⟩ := DragTable_find_some p.DragFunction ⟨h3, h4⟩ speed h0
    obtain ⟨_, hA, hM⟩ := DragTable_pos p.DragFunction e (List.mem_of_find?_eq_some he)
    have hsw : dragSwitch p.DragFunction speed = (e.2.1, e.2.2) := by
      rw [dragSwitch_eq_scanTable, scanTable_eq_find, he]
    have hA1 : e.2.1 ≠ -1 := by linarith
    have hM1 : e.2.2 ≠ -1 := by linarith
    simp only [DragRetardationVelocity, hsw]
    rw [if_pos ⟨hA1, hM1, h0, h1⟩]
    exact div_pos (mul_pos hA (hpow _ _ h0)) hbc
  refine ⟨hpos, ?_, ?_⟩
  · intro hm
    by_contra hc
    push_neg at hc
    obtain ⟨h0, h1, h3, h4⟩ := hc
    have := hpos h3 h4 h0 h1
    rw [hm] at this
    linarith
  · rintro (h | h | h | h)
    · simp only [DragRetardationVelocity]
      rw [if_neg]
      rintro ⟨_, _, h0, _⟩
      exact absurd h0 (not_lt.mpr h)
    · simp only [DragRetardationVelocity]
      rw [if_neg]
      rintro ⟨_, _, _, h1⟩
      exact absurd h1 (not_lt.mpr h)
    · simp [DragRetardationVelocity, h, dragSwitch]
    · simp [DragRetardationVelocity, h, dragSwitch]

theorem DragRetardationVelocity_sentinel_witness :
    (0 : ℝ) < (Projectile.new Projectile.zero (0.465 : ℝ) .G1 2650 1.6).DragCoefficient ∧
    (∀ x y : ℝ, 0 < x →
      0 < (MathOps.mk Real.sqrt Real.sin Real.cos Real.arctan (fun x y => x ^ y)).pow x y) ∧
    ((((Projectile.new Projectile.zero (0.465 : ℝ) .G1 2650 1.6).DragFunction ≠ .G3 →
        (Projectile.new Projectile.zero (0.465 : ℝ) .G1 2650 1.6).DragFunction ≠ .G4 →
        (0 : ℝ) < 2650 → (2650 : ℝ) < 10000 →
        0 < DragRetardationVelocity
          (MathOps.mk Real.sqrt Real.sin Real.cos Real.arctan (fun x y => x ^ y))
          (Projectile.new Projectile.zero (0.465 : ℝ) .G1 2650 1.6) 2650)) ∧
      (DragRetardationVelocity
          (MathOps.mk Real.sqrt Real.sin Real.cos Real.arctan (fun x y => x ^ y))
          (Projectile.new Projectile.zero (0.465 : ℝ) .G1 2650 1.6) 2650 = -1 ↔
        ((2650 : ℝ) ≤ 0 ∨ (10000 : ℝ) ≤ 2650 ∨
          (Projectile.new Projectile.zero (0.465 : ℝ) .G1 2650 1.6).DragFunction = .G3 ∨
          (Projectile.new Projectile.zero (0.465 : ℝ) .G1 2650 1.6).DragFunction = .G4))) :=
  ⟨by simp only [Projectile.new]; norm_num, fun x y hx => Real.rpow_pos_of_pos hx y,
    DragRetardationVelocity_sentinel
      (MathOps.mk Real.sqrt Real.sin Real.cos Real.arctan (fun x y => x ^ y))
      (Projectile.new Projectile.zero (0.465 : ℝ) .G1 2650 1.6) 2650
      (by simp only [Projectile.new]; norm_num) (fun x y hx => Real.rpow_pos_of_pos hx y)⟩

/-- C24: two calls of `Update` that differ only in the crosswind argument either both
write outside the buffer or return the same value, leave the same `dt`, and leave
projectiles that agree in every member (`vx`, `vy`, `x`, `y`, `ProjectilePathCount`, and
the rest) and in every member of every sample other than `Windage` and `WindageMOA`. -/
theorem Update_crosswind_independent (m : MathOps α) (p : Projectile α)
    (dt hw cw1 cw2 : α) :
    (Update m p dt hw cw1).map (fun r => (r.1, r.2.1, r.2.2.withoutWindage))
      = (Update m p dt hw cw2).map (fun r => (r.1, r.2.1, r.2.2.withoutWindage)) := by
  have hupd : ∀ (s1 s2 : ProjectilePath α), s1.withoutWindage = s2.withoutWindage →
      (fun k => (Function.update p.aProjectilePath p.ProjectilePathCount.toNat s1 k).withoutWindage)
        = (fun k =>
          (Function.update p.aProjectilePath p.ProjectilePathCount.toNat s2 k).withoutWindage) := by
    intro s1 s2 h
    funext k
    by_cases hk : k = p.ProjectilePathCount.toNat
    · rw [hk, Function.update_same, Function.update_same, h]
    · rw [Function.update_noteq hk, Function.update_noteq hk]
  by_cases hx : p.x / 3 ≥ (p.ProjectilePathCount : α)
  · by_cases hn : 0 ≤ p.ProjectilePathCount ∧ p.ProjectilePathCount < BCOMP_MAXRANGE
    · simp only [Update, if_pos hx, if_pos hn]
      split_ifs <;>
        simp only [Option.map_some', Option.some.injEq, Prod.mk.injEq, true_and,
          Projectile.withoutWindage, Projectile.mk.injEq, and_true] <;>
        exact hupd _ _ rfl
    · simp only [Update, if_pos hx, if_neg hn, Option.map_none']
  · simp only [Update, if_neg hx]

end Thms

end Ballistics
